import Mathlib

/-! # Gmail auto-responder (`index.js`): embedding and verified properties

The script polls a mailbox, inspects each listed thread and sends a canned reply.
Its functions are embedded as programs of a small state-and-exception monad `Js`
whose state is the trace of observable events (requests to the mail service, console
output, calls of the script's own functions, resumption points of `await`).
Responses of the mail service are supplied by an oracle that sees the whole trace so
far, so every sequence of outcomes (success or thrown error) is covered.

The interval of the scheduler is computed in binary64 arithmetic, modelled by exact
rational arithmetic followed by rounding to nearest, ties to even. The timer callback
is modelled by splitting the trace of a pass at its first resumption: what comes before
runs in the job of the callback, the rest in later jobs of the event loop.
-/

namespace AutoReply

/-! ## JavaScript values -/

/-- Value of the `code` property of a thrown error. -/
inductive ErrCode where
  | undefined
  | num (n : Int)
  | str (s : String)
  deriving DecidableEq, Repr

/-- A thrown `Error` object: `name`, `message` and `code`. -/
structure JsError where
  name : String
  message : String
  code : ErrCode
  deriving DecidableEq, Repr

/-- String conversion of an error (`Error.prototype.toString`), used by `'...' + err`. -/
def JsError.toText (e : JsError) : String :=
  if e.name = "" then e.message
  else if e.message = "" then e.name
  else e.name ++ ": " ++ e.message

/-- The comparison `err.code !== 409` (strict inequality with the number 409). -/
def ErrCode.strictNe409 : ErrCode → Bool
  | .num n => n != 409
  | _ => true

/-- The `TypeError` raised by reading property `prop` of `undefined`. -/
def typeErrorUndefined (prop : String) : JsError :=
  { name := "TypeError"
    message := "Cannot read properties of undefined (reading " ++ "\x27" ++ prop ++ "\x27" ++ ")"
    code := .undefined }

/-! ## Data model of the mail service -/

/-- One header of a message payload. -/
structure Header where
  name : String
  value : String
  deriving DecidableEq, Repr

/-- A message of a thread; only `payload.headers` is read. -/
structure Message where
  headers : List Header
  deriving DecidableEq, Repr

/-- Response data of `users.threads.get`. -/
structure Thread where
  messages : List Message
  deriving DecidableEq, Repr

/-- A message reference returned by the scan query. -/
structure MessageRef where
  id : String
  threadId : String
  deriving DecidableEq, Repr

/-- Response data of `users.messages.list`; the service leaves `messages` out
(`undefined`) when there is no result. -/
structure ListResponse where
  resultSizeEstimate : Nat
  messages : Option (List MessageRef)
  deriving DecidableEq, Repr

/-- Response of `users.labels.create`; only `data.id` is read. -/
structure Label where
  id : String
  deriving DecidableEq, Repr

/-! ## Events and the trace monad -/

/-- The functions of the script whose calls are recorded in the trace. -/
inductive Fn where
  | handleEmail
  | sendReply
  | runTask
  deriving DecidableEq, Repr

/-- Observable events of a run, in program order. -/
inductive Ev where
  /-- request `users.messages.list` with query `q` -/
  | messagesList (q : String)
  /-- request `users.threads.get` -/
  | threadsGet (id : String)
  /-- request `users.labels.create` -/
  | labelsCreate (name labelListVisibility messageListVisibility : String)
  /-- request `users.threads.modify` -/
  | threadsModify (id : String) (addLabelIds : List String)
  /-- request `users.messages.send` -/
  | messagesSend (raw threadId : String)
  /-- call of `authorize()` -/
  | authorize
  /-- `console.log(...args)` -/
  | consoleLog (args : List String)
  /-- `console.error(...args)` -/
  | consoleError (args : List String)
  /-- a function of the script is entered with the given arguments -/
  | enter (fn : Fn) (args : List String)
  /-- the promise of an async function of the script settles -/
  | leave (fn : Fn)
  /-- an `await` resumes: what follows runs in a later job of the event loop -/
  | resume
  /-- `setTimeout(callback, ms)` arms a timer -/
  | setTimeout (ms : ℚ)
  deriving DecidableEq, Repr

/-- Outcomes of the external calls, each as a function of the trace up to and including
the request. `labelsCreate` may resolve to a falsy value (`none`). -/
structure World where
  authorize : List Ev → Except JsError Unit
  messagesList : List Ev → Except JsError ListResponse
  threadsGet : List Ev → Except JsError Thread
  labelsCreate : List Ev → Except JsError (Option Label)
  threadsModify : List Ev → Except JsError Unit
  messagesSend : List Ev → Except JsError Unit

/-- Programs: a trace goes in, a result or thrown error and the extended trace come out. -/
def Js (α : Type) : Type := List Ev → Except JsError α × List Ev

/-- Run a program from a trace. -/
def Js.run {α : Type} (m : Js α) (tr : List Ev) : Except JsError α × List Ev := m tr

/-- Return a value. -/
def Js.pure {α : Type} (a : α) : Js α := fun tr => (.ok a, tr)

/-- Sequencing; a thrown error skips the rest. -/
def Js.bind {α β : Type} (m : Js α) (f : α → Js β) : Js β := fun tr =>
  match m tr with
  | (.ok a, tr1) => f a tr1
  | (.error e, tr1) => (.error e, tr1)

instance : Monad Js where
  pure := Js.pure
  bind := Js.bind

/-- The statement `throw e`. -/
def throwJs {α : Type} (e : JsError) : Js α := fun tr => (.error e, tr)

/-- The statement `try { body } catch (e) { handler e }`. -/
def tryCatch {α : Type} (body : Js α) (handler : JsError → Js α) : Js α := fun tr =>
  match body tr with
  | (.ok a, tr1) => (.ok a, tr1)
  | (.error e, tr1) => handler e tr1

/-- Record an event. -/
def emit (e : Ev) : Js Unit := fun tr => (.ok (), tr ++ [e])

/-- Issue request `e`; its outcome is what the oracle gives for the trace so far. -/
def request {α : Type} (e : Ev) (oracle : List Ev → Except JsError α) : Js α := fun tr =>
  (oracle (tr ++ [e]), tr ++ [e])

/-- The expression `await m`: the awaited call runs, and the caller resumes in a later
job with its value or its thrown error. -/
def await {α : Type} (m : Js α) : Js α := fun tr =>
  match m tr with
  | (r, tr1) => (r, tr1 ++ [Ev.resume])

/-! ## Encoding of the reply: UTF-8 bytes and base64 -/

/-- UTF-8 bytes of one code point, as `Buffer.from(string)` produces them. -/
def utf8EncodeChar (c : Char) : List Nat :=
  let v := c.toNat
  if v < 0x80 then [v]
  else if v < 0x800 then [0xC0 + v / 64, 0x80 + v % 64]
  else if v < 0x10000 then [0xE0 + v / 4096, 0x80 + v / 64 % 64, 0x80 + v % 64]
  else [0xF0 + v / 262144, 0x80 + v / 4096 % 64, 0x80 + v / 64 % 64, 0x80 + v % 64]

/-- UTF-8 bytes of a string. -/
def utf8Bytes : List Char → List Nat
  | [] => []
  | c :: cs => utf8EncodeChar c ++ utf8Bytes cs

/-- The bytes of `Buffer.from(s)`. -/
def utf8Encode (s : String) : List Nat := utf8Bytes s.toList

/-- The base64 digit of a 6-bit value (alphabet `A-Z a-z 0-9 + /`). -/
def base64Char (n : Nat) : Char :=
  if n < 26 then Char.ofNat (65 + n)
  else if n < 52 then Char.ofNat (97 + (n - 26))
  else if n < 62 then Char.ofNat (48 + (n - 52))
  else if n = 62 then '+'
  else '/'

/-- Base64 digits of a byte sequence, three bytes to four digits, padded with `=`. -/
def base64Chars : List Nat → List Char
  | [] => []
  | [a] => [base64Char (a / 4), base64Char (a % 4 * 16), '=', '=']
  | [a, b] =>
    [base64Char (a / 4), base64Char (a % 4 * 16 + b / 16), base64Char (b % 16 * 4), '=']
  | a :: b :: c :: rest =>
    base64Char (a / 4) :: base64Char (a % 4 * 16 + b / 16) ::
      base64Char (b % 16 * 4 + c / 64) :: base64Char (c % 64) :: base64Chars rest

/-- The string `buffer.toString('base64')`. -/
def base64 (bytes : List Nat) : String := String.mk (base64Chars bytes)

/-- The 6-bit value of a base64 digit, `none` for any other character. -/
def base64Value (c : Char) : Option Nat :=
  let v := c.toNat
  if 65 ≤ v ∧ v < 91 then some (v - 65)
  else if 97 ≤ v ∧ v < 123 then some (v - 97 + 26)
  else if 48 ≤ v ∧ v < 58 then some (v - 48 + 52)
  else if v = 43 then some 62
  else if v = 47 then some 63
  else none

/-- Standard (RFC 4648) base64 decoding of a digit sequence with padding. -/
def base64DecodeChars : List Char → Option (List Nat)
  | [] => some []
  | c1 :: c2 :: c3 :: c4 :: rest =>
    match base64Value c1, base64Value c2 with
    | some s1, some s2 =>
      if c4 = '=' ∧ rest = [] then
        if c3 = '=' then some [s1 * 4 + s2 / 16]
        else
          match base64Value c3 with
          | some s3 => some [s1 * 4 + s2 / 16, s2 % 16 * 16 + s3 / 4]
          | none => none
      else
        match base64Value c3, base64Value c4, base64DecodeChars rest with
        | some s3, some s4, some tail =>
          some ((s1 * 4 + s2 / 16) :: (s2 % 16 * 16 + s3 / 4) :: (s3 % 4 * 64 + s4) :: tail)
        | _, _, _ => none
    | _, _ => none
  | _ => none

/-- Decoding of a base64 string to bytes. -/
def base64Decode (s : String) : Option (List Nat) := base64DecodeChars s.toList

/-! ## The responder, the thread inspector and the scanner -/

/-- The constant `LABEL_NAME`. -/
def LABEL_NAME : String := "testing"

/-- The template literal that builds the raw reply in `sendReply`. -/
def emailContent (subject senderEmail message : String) : String :=
  "Subject: Re: " ++ subject ++ "\nTo: " ++ senderEmail ++ "\n\n" ++ message

/-- The function `sendReply(auth, threadId, subject, message, senderEmail)`. -/
def sendReply (w : World) (threadId subject message senderEmail : String) : Js Unit := do
  emit (.enter .sendReply [threadId, subject, message, senderEmail])
  let base64EncodedEmail := base64 (utf8Encode (emailContent subject senderEmail message))
  tryCatch
    (do
      let label ← await (request (.labelsCreate LABEL_NAME "labelShow" "show") w.labelsCreate)
      match label with
      | some label =>
        await (request (.threadsModify threadId [label.id]) w.threadsModify)
        await (request (.messagesSend base64EncodedEmail threadId) w.messagesSend)
        emit (.consoleLog ["Reply sent."])
      | none => pure ())
    (fun err =>
      if err.code.strictNe409 then
        emit (.consoleLog ["Error creating label or sending message: " ++ err.toText])
      else pure ())

/-- The expression `headers.find((header) => header.name === name)`. -/
def findHeader (name : String) (headers : List Header) : Option Header :=
  headers.find? (fun header => header.name == name)

/-- The expression `headers.find(...).value`: a `TypeError` when no header matches. -/
def headerValue (name : String) (headers : List Header) : Js String :=
  match findHeader name headers with
  | some header => pure header.value
  | none => throwJs (typeErrorUndefined "value")

/-- The function `handleEmail(auth, threadId)`. -/
def handleEmail (w : World) (threadId : String) : Js Unit := do
  emit (.enter .handleEmail [threadId])
  tryCatch
    (do
      let thread ← await (request (.threadsGet threadId) w.threadsGet)
      if thread.messages.length = 1 then
        match thread.messages[0]? with
        | some first =>
          let emailSubject ← headerValue "Subject" first.headers
          let senderEmail ← headerValue "From" first.headers
          emit (.consoleLog ["Subject: ", emailSubject])
          emit (.consoleLog ["Sender Email: ", senderEmail])
          let replyMessage := "Your automatic reply message here."
          await (sendReply w threadId emailSubject replyMessage senderEmail)
        | none => throwJs (typeErrorUndefined "payload")
      else pure ())
    (fun error => emit (.consoleError ["An error occurred: " ++ error.message]))

/-- The loop `for (const message of messages) await handleEmail(auth, message.threadId)`. -/
def forEachMessage (w : World) : List MessageRef → Js Unit
  | [] => pure ()
  | message :: rest => do
    await (handleEmail w message.threadId)
    forEachMessage w rest

/-- The function `listMessagesWithNoReplies(auth)`. -/
def listMessagesWithNoReplies (w : World) : Js Unit :=
  tryCatch
    (do
      let res ← await (request (.messagesList "is:unread -in:sent -in:chat") w.messagesList)
      if res.resultSizeEstimate ≠ 0 then
        match res.messages with
        | some messages =>
          if messages.length = 0 then emit (.consoleLog ["No emails found."])
          else forEachMessage w messages
        | none => throwJs (typeErrorUndefined "length")
      else pure ())
    (fun error => emit (.consoleError ["An error occurred: " ++ error.message]))

/-- The function `runTask()`. -/
def runTask (w : World) : Js Unit := do
  emit (.enter .runTask [])
  tryCatch
    (do
      await (request .authorize w.authorize)
      await (listMessagesWithNoReplies w))
    (fun error => emit (.consoleError ["An error occurred: " ++ error.message]))
  emit (.leave .runTask)


/-! ## Reading a trace -/

/-- The events a program adds to the trace `tr`. -/
def Js.events {α : Type} (m : Js α) (tr : List Ev) : List Ev := (m.run tr).2.drop tr.length

/-- The thread id of a recorded call `handleEmail(auth, threadId)`. -/
def handleEmailArg : Ev → Option String
  | .enter .handleEmail [threadId] => some threadId
  | _ => none

/-- The thread ids passed to `handleEmail`, in call order. -/
def handleEmailCalls (tr : List Ev) : List String := tr.filterMap handleEmailArg

/-- What the `catch` block of `sendReply` adds to the trace for a caught error. -/
def catchEvents (err : JsError) : List Ev :=
  if err.code.strictNe409 then
    [.consoleLog ["Error creating label or sending message: " ++ err.toText]]
  else []

/-- Whether an event is a request to the mail service that creates a label, modifies a
thread or sends a message. -/
def Ev.isMutation : Ev → Bool
  | .labelsCreate _ _ _ => true
  | .threadsModify _ _ => true
  | .messagesSend _ _ => true
  | _ => false

/-- Decoding of the first code point of a UTF-8 byte sequence: the code point and the
bytes after it; `none` when the sequence is cut short or starts with a byte that
cannot start one. -/
def utf8DecodeChar : List Nat → Option (Char × List Nat)
  | [] => none
  | b0 :: rest =>
    if b0 < 0x80 then some (Char.ofNat b0, rest)
    else if b0 < 0xC0 then none
    else if b0 < 0xE0 then
      match rest with
      | b1 :: rest1 => some (Char.ofNat ((b0 - 0xC0) * 64 + (b1 - 0x80)), rest1)
      | _ => none
    else if b0 < 0xF0 then
      match rest with
      | b1 :: b2 :: rest2 =>
        some (Char.ofNat ((b0 - 0xE0) * 4096 + (b1 - 0x80) * 64 + (b2 - 0x80)), rest2)
      | _ => none
    else
      match rest with
      | b1 :: b2 :: b3 :: rest3 =>
        some (Char.ofNat ((b0 - 0xF0) * 262144 + (b1 - 0x80) * 4096 + (b2 - 0x80) * 64
          + (b3 - 0x80)), rest3)
      | _ => none

/-- Decoding of at most `fuel` code points that make up the whole byte sequence. -/
def utf8DecodeBytes : Nat → List Nat → Option (List Char)
  | _, [] => some []
  | 0, _ :: _ => none
  | fuel + 1, b :: bytes =>
    match utf8DecodeChar (b :: bytes) with
    | some (c, rest) =>
      match utf8DecodeBytes fuel rest with
      | some cs => some (c :: cs)
      | none => none
    | none => none

/-- Decoding of UTF-8 bytes to a string; a sequence of bytes has at most as many code
points as bytes. -/
def utf8Decode (bytes : List Nat) : Option String :=
  match utf8DecodeBytes bytes.length bytes with
  | some cs => some (String.mk cs)
  | none => none

/-! ## Sample worlds -/

/-- A thread with one message carrying the headers `Subject: Hello` and
`From: a@example.com`. -/
def helloThread : Thread :=
  ⟨[⟨[⟨"Subject", "Hello"⟩, ⟨"From", "a@example.com"⟩]⟩]⟩

/-- A world in which every call succeeds: two messages of two threads are listed and
each thread is `helloThread`. -/
def okWorld : World where
  authorize := fun _ => .ok ()
  messagesList := fun _ => .ok ⟨2, some [⟨"m1", "t1"⟩, ⟨"m2", "t2"⟩]⟩
  threadsGet := fun _ => .ok helloThread
  labelsCreate := fun _ => .ok (some ⟨"Label_1"⟩)
  threadsModify := fun _ => .ok ()
  messagesSend := fun _ => .ok ()

/-- The error of a label creation that meets an existing label: HTTP status 409. -/
def conflictError : JsError :=
  { name := "Error", message := "Label name exists or conflicts", code := .num 409 }

/-- A server-side failure: HTTP status 500. -/
def serverError : JsError :=
  { name := "Error", message := "Backend Error", code := .num 500 }

/-- As `okWorld`, but the label already exists: creating it fails with status 409. -/
def conflictWorld : World := { okWorld with labelsCreate := fun _ => .error conflictError }

/-- As `okWorld`, but the scan returns an empty list and `resultSizeEstimate` 0. -/
def emptyWorld : World := { okWorld with messagesList := fun _ => .ok ⟨0, some []⟩ }

/-- As `okWorld`, but every thread has two messages. -/
def repliedWorld : World :=
  { okWorld with threadsGet := fun _ => .ok ⟨[⟨[⟨"Subject", "Hello"⟩]⟩, ⟨[⟨"Subject", "Re: Hello"⟩]⟩]⟩ }

/-- As `okWorld`, but the single message of every thread has no `From` header. -/
def noFromWorld : World :=
  { okWorld with threadsGet := fun _ => .ok ⟨[⟨[⟨"Subject", "Hello"⟩]⟩]⟩ }

/-- As `okWorld`, but the two listed messages belong to the same thread. -/
def sameThreadWorld : World :=
  { okWorld with messagesList := fun _ => .ok ⟨2, some [⟨"m1", "t1"⟩, ⟨"m2", "t1"⟩]⟩ }

/-- As `okWorld`, but label creation fails with status 500. -/
def labelFailWorld : World := { okWorld with labelsCreate := fun _ => .error serverError }

/-- As `okWorld`, but the fetch of thread `t1` throws. -/
def fetchFailWorld : World :=
  { okWorld with
    threadsGet := fun tr =>
      if tr.getLast? = some (.threadsGet "t1") then .error serverError else .ok helloThread }

/-! ## Double-precision arithmetic and the scheduler

JavaScript numbers are binary64 values. A finite value is a rational number; an operation
computes the exact result and rounds it to the nearest binary64 value, ties to even.
Overflow to an infinity is the outcome `none`. -/

/-- Rounding of a rational to the nearest integer, a tie going to the even one. -/
def roundHalfEven (t : ℚ) : ℤ :=
  if t - ⌊t⌋ < 1 / 2 then ⌊t⌋
  else if 1 / 2 < t - ⌊t⌋ then ⌊t⌋ + 1
  else if ⌊t⌋ % 2 = 0 then ⌊t⌋
  else ⌊t⌋ + 1

/-- Exponent of the binade of `x`: the `e` with `2 ^ e ≤ |x| < 2 ^ (e + 1)`, and the
least normal exponent `-1022` for subnormal numbers and zero. -/
def binade (x : ℚ) : ℤ := max (Int.log 2 |x|) (-1022)

/-- Spacing of the binary64 values in the binade of `x` (53 significant bits). -/
def ulp (x : ℚ) : ℚ := 2 ^ (binade x - 52)

/-- The multiple of `ulp x` nearest to `x`, ties to even. -/
def roundNearest (x : ℚ) : ℚ := roundHalfEven (x / ulp x) * ulp x

/-- Rounding of an exact result to binary64; `none` when it overflows. -/
def roundDouble (x : ℚ) : Option ℚ :=
  if |roundNearest x| < 2 ^ 1024 then some (roundNearest x) else none

/-- The product `a * b` of two numbers. -/
def fmul (a b : ℚ) : Option ℚ := roundDouble (a * b)

/-- The sum `a + b` of two numbers. -/
def fadd (a b : ℚ) : Option ℚ := roundDouble (a + b)

/-- The difference `a - b` of two numbers. -/
def fsub (a b : ℚ) : Option ℚ := roundDouble (a - b)

/-- The quotient `a / b` of two numbers, `b` not zero. -/
def fdiv (a b : ℚ) : Option ℚ := roundDouble (a / b)

/-- The expression `Math.floor(Math.random() * (120 - 45 + 1) + 45) * 1000` for the value
`r` of `Math.random()`. -/
def interval (r : ℚ) : Option ℚ := do
  let span ← fsub 120 45
  let width ← fadd span 1
  let scaled ← fmul r width
  let shifted ← fadd scaled 45
  fmul (⌊shifted⌋ : ℤ) 1000

/-- The text of a number in a template literal, for integers below `10 ^ 21` in absolute
value (decimal digits); other numbers are outside the modelled fragment. -/
def numberToString (x : ℚ) : Option String :=
  if x.den = 1 ∧ |x| < 10 ^ 21 then some (toString x.num) else none

/-- The function `runTaskWithRandomInterval()` up to the arming of the timer, for the
value `r` of `Math.random()`: the log line and the `setTimeout` call. -/
def runTaskWithRandomInterval (r : ℚ) : Option (List Ev) := do
  let interval ← interval r
  let seconds ← fdiv interval 1000
  let text ← numberToString seconds
  pure [.consoleLog ["Next run in " ++ text ++ " seconds."], .setTimeout interval]

/-- The part of the trace of an async call that runs within the call itself: the events
before the first resumption of an `await`. -/
def syncPart (tr : List Ev) : List Ev := tr.takeWhile (fun e => e != Ev.resume)

/-- The part of the trace of an async call that runs in later jobs of the event loop. -/
def laterPart (tr : List Ev) : List Ev := tr.dropWhile (fun e => e != Ev.resume)

/-- The timer callback `() => { runTask(); runTaskWithRandomInterval(); }`. The call
`runTask()` is not awaited: it runs up to its first `await` and hands back a pending
promise, then `runTaskWithRandomInterval()` runs, and the rest of the pass runs in later
jobs. The result is the events of the callback's own job and the events of the later
jobs of the pass. -/
def timerCallback (w : World) (r : ℚ) : Option (List Ev × List Ev) := do
  let pass := (runTask w).events []
  let arm ← runTaskWithRandomInterval r
  pure (syncPart pass ++ arm, laterPart pass)


/-! ## Equations of the trace monad -/

section RunLemmas
variable {α β : Type}

@[simp] theorem run_pure (a : α) (tr : List Ev) : (pure a : Js α).run tr = (.ok a, tr) := rfl

@[simp] theorem run_bind (m : Js α) (f : α → Js β) (tr : List Ev) :
    (m >>= f).run tr =
      match m.run tr with
      | (.ok a, tr1) => (f a).run tr1
      | (.error e, tr1) => (.error e, tr1) := rfl

@[simp] theorem run_throwJs (e : JsError) (tr : List Ev) :
    (throwJs e : Js α).run tr = (.error e, tr) := rfl

@[simp] theorem run_tryCatch (body : Js α) (handler : JsError → Js α) (tr : List Ev) :
    (tryCatch body handler).run tr =
      match body.run tr with
      | (.ok a, tr1) => (.ok a, tr1)
      | (.error e, tr1) => (handler e).run tr1 := rfl

@[simp] theorem run_emit (e : Ev) (tr : List Ev) : (emit e).run tr = (.ok (), tr ++ [e]) := rfl

@[simp] theorem run_request (e : Ev) (oracle : List Ev → Except JsError α) (tr : List Ev) :
    (request e oracle).run tr = (oracle (tr ++ [e]), tr ++ [e]) := rfl

@[simp] theorem run_await (m : Js α) (tr : List Ev) :
    (await m).run tr = ((m.run tr).1, (m.run tr).2 ++ [Ev.resume]) := rfl

end RunLemmas


/-! ## The encoding of the reply can be undone -/

theorem base64Value_base64Char : ∀ n, n < 64 → base64Value (base64Char n) = some n := by
  decide

theorem base64Char_ne_pad : ∀ n, n < 64 → base64Char n ≠ '=' := by
  decide

theorem base64DecodeChars_base64Chars (bytes : List Nat) (h : ∀ b ∈ bytes, b < 256) :
    base64DecodeChars (base64Chars bytes) = some bytes := by
  induction bytes using base64Chars.induct with
  | case1 => rfl
  | case2 a =>
    have ha : a < 256 := h a (by simp)
    have h1 := base64Value_base64Char (a / 4) (by omega)
    have h2 := base64Value_base64Char (a % 4 * 16) (by omega)
    simp only [base64Chars, base64DecodeChars, h1, h2]
    simp
    omega
  | case3 a b =>
    have ha : a < 256 := h a (by simp)
    have hb : b < 256 := h b (by simp)
    have h1 := base64Value_base64Char (a / 4) (by omega)
    have h2 := base64Value_base64Char (a % 4 * 16 + b / 16) (by omega)
    have h3 := base64Value_base64Char (b % 16 * 4) (by omega)
    have h3n := base64Char_ne_pad (b % 16 * 4) (by omega)
    simp only [base64Chars, base64DecodeChars, h1, h2, h3]
    simp [h3n]
    omega
  | case4 a b c rest ih =>
    have ha : a < 256 := h a (by simp)
    have hb : b < 256 := h b (by simp)
    have hc : c < 256 := h c (by simp)
    have hrest : ∀ x ∈ rest, x < 256 := fun x hx => h x (by simp [hx])
    have h1 := base64Value_base64Char (a / 4) (by omega)
    have h2 := base64Value_base64Char (a % 4 * 16 + b / 16) (by omega)
    have h3 := base64Value_base64Char (b % 16 * 4 + c / 64) (by omega)
    have h4 := base64Value_base64Char (c % 64) (by omega)
    have h4n := base64Char_ne_pad (c % 64) (by omega)
    simp only [base64Chars, base64DecodeChars, h1, h2, h3, h4, ih hrest]
    simp [h4n]
    omega

theorem utf8EncodeChar_lt (c : Char) : ∀ b ∈ utf8EncodeChar c, b < 256 := by
  have hv : c.toNat < 0x110000 := by
    have := c.valid
    simp only [Char.toNat, UInt32.isValidChar, Nat.isValidChar] at *
    omega
  intro b hb
  unfold utf8EncodeChar at hb
  simp only at hb
  split_ifs at hb <;> simp at hb <;> omega

theorem utf8Bytes_lt (cs : List Char) : ∀ b ∈ utf8Bytes cs, b < 256 := by
  induction cs with
  | nil => simp [utf8Bytes]
  | cons c cs ih =>
    intro b hb
    simp only [utf8Bytes, List.mem_append] at hb
    rcases hb with hb | hb
    · exact utf8EncodeChar_lt c b hb
    · exact ih b hb

theorem base64Decode_base64_utf8 (s : String) :
    base64Decode (base64 (utf8Encode s)) = some (utf8Encode s) :=
  base64DecodeChars_base64Chars _ (utf8Bytes_lt _)

theorem utf8DecodeChar_utf8EncodeChar (c : Char) (rest : List Nat) :
    utf8DecodeChar (utf8EncodeChar c ++ rest) = some (c, rest) := by
  have hv : c.toNat < 0x110000 := by
    have := c.valid
    simp only [Char.toNat, UInt32.isValidChar, Nat.isValidChar] at *
    omega
  have hc : Char.ofNat c.toNat = c := Char.ofNat_toNat c
  simp only [utf8EncodeChar]
  split_ifs with h1 h2 h3
  · simp [utf8DecodeChar, h1, hc]
  · have e : (0xC0 + c.toNat / 64 - 0xC0) * 64 + (0x80 + c.toNat % 64 - 0x80) = c.toNat := by
      omega
    have n1 : ¬ (0xC0 + c.toNat / 64 < 0x80) := by omega
    have n2 : ¬ (0xC0 + c.toNat / 64 < 0xC0) := by omega
    have n3 : 0xC0 + c.toNat / 64 < 0xE0 := by omega
    simp only [List.cons_append, List.nil_append, utf8DecodeChar, n1, n2, n3, if_true,
      if_false, e, hc]
  · have e : (0xE0 + c.toNat / 4096 - 0xE0) * 4096 + (0x80 + c.toNat / 64 % 64 - 0x80) * 64
        + (0x80 + c.toNat % 64 - 0x80) = c.toNat := by omega
    have n1 : ¬ (0xE0 + c.toNat / 4096 < 0x80) := by omega
    have n2 : ¬ (0xE0 + c.toNat / 4096 < 0xC0) := by omega
    have n3 : ¬ (0xE0 + c.toNat / 4096 < 0xE0) := by omega
    have n4 : 0xE0 + c.toNat / 4096 < 0xF0 := by omega
    simp only [List.cons_append, List.nil_append, utf8DecodeChar, n1, n2, n3, n4, if_true,
      if_false, e, hc]
  · have e : (0xF0 + c.toNat / 262144 - 0xF0) * 262144
        + (0x80 + c.toNat / 4096 % 64 - 0x80) * 4096
        + (0x80 + c.toNat / 64 % 64 - 0x80) * 64
        + (0x80 + c.toNat % 64 - 0x80) = c.toNat := by omega
    have n1 : ¬ (0xF0 + c.toNat / 262144 < 0x80) := by omega
    have n2 : ¬ (0xF0 + c.toNat / 262144 < 0xC0) := by omega
    have n3 : ¬ (0xF0 + c.toNat / 262144 < 0xE0) := by omega
    have n4 : ¬ (0xF0 + c.toNat / 262144 < 0xF0) := by omega
    simp only [List.cons_append, List.nil_append, utf8DecodeChar, n1, n2, n3, n4,
      if_false, e, hc]

theorem utf8EncodeChar_ne_nil (c : Char) : ∃ b bs, utf8EncodeChar c = b :: bs := by
  simp only [utf8EncodeChar]
  split_ifs <;> exact ⟨_, _, rfl⟩

theorem utf8DecodeBytes_utf8Bytes (cs : List Char) :
    ∀ fuel, cs.length ≤ fuel → utf8DecodeBytes fuel (utf8Bytes cs) = some cs := by
  induction cs with
  | nil =>
    intro fuel _
    cases fuel <;> rfl
  | cons c cs ih =>
    intro fuel hfuel
    obtain ⟨fuel, rfl⟩ : ∃ k, fuel = k + 1 := ⟨fuel - 1, by simp at hfuel; omega⟩
    have hdec := utf8DecodeChar_utf8EncodeChar c (utf8Bytes cs)
    obtain ⟨b, bs, hb⟩ := utf8EncodeChar_ne_nil c
    simp only [utf8Bytes]
    rw [hb, List.cons_append] at hdec ⊢
    simp only [utf8DecodeBytes, hdec, ih fuel (by simpa using hfuel)]

theorem length_le_utf8Bytes (cs : List Char) : cs.length ≤ (utf8Bytes cs).length := by
  induction cs with
  | nil => simp
  | cons c cs ih =>
    obtain ⟨b, bs, hb⟩ := utf8EncodeChar_ne_nil c
    simp only [utf8Bytes, hb, List.length_cons, List.length_append]
    omega

theorem utf8Decode_utf8Encode (s : String) : utf8Decode (utf8Encode s) = some s := by
  simp [utf8Decode, utf8Encode, utf8DecodeBytes_utf8Bytes _ _ (length_le_utf8Bytes _)]

/-! ## The paths of `sendReply` and `handleEmail` -/

theorem catchEvents_run (err : JsError) (tr : List Ev) :
    (if err.code.strictNe409 = true then
        emit (.consoleLog ["Error creating label or sending message: " ++ err.toText])
      else (pure () : Js Unit)).run tr = (.ok (), tr ++ catchEvents err) := by
  unfold catchEvents
  split <;> simp

/-- Every call of `sendReply` returns normally and follows one of five paths. -/
theorem sendReply_paths (w : World) (threadId subject message senderEmail : String)
    (tr : List Ev) :
    ∃ new, (sendReply w threadId subject message senderEmail).run tr = (.ok (), tr ++ new) ∧
      ((∃ err, w.labelsCreate (tr ++ [.enter .sendReply [threadId, subject, message, senderEmail],
            .labelsCreate LABEL_NAME "labelShow" "show"]) = .error err ∧
          new = [.enter .sendReply [threadId, subject, message, senderEmail],
            .labelsCreate LABEL_NAME "labelShow" "show", .resume] ++ catchEvents err) ∨
       (w.labelsCreate (tr ++ [.enter .sendReply [threadId, subject, message, senderEmail],
            .labelsCreate LABEL_NAME "labelShow" "show"]) = .ok none ∧
          new = [.enter .sendReply [threadId, subject, message, senderEmail],
            .labelsCreate LABEL_NAME "labelShow" "show", .resume]) ∨
       (∃ label err,
          w.labelsCreate (tr ++ [.enter .sendReply [threadId, subject, message, senderEmail],
            .labelsCreate LABEL_NAME "labelShow" "show"]) = .ok (some label) ∧
          w.threadsModify (tr ++ [.enter .sendReply [threadId, subject, message, senderEmail],
            .labelsCreate LABEL_NAME "labelShow" "show", .resume,
            .threadsModify threadId [label.id]]) = .error err ∧
          new = [.enter .sendReply [threadId, subject, message, senderEmail],
            .labelsCreate LABEL_NAME "labelShow" "show", .resume,
            .threadsModify threadId [label.id], .resume] ++ catchEvents err) ∨
       (∃ label err,
          w.labelsCreate (tr ++ [.enter .sendReply [threadId, subject, message, senderEmail],
            .labelsCreate LABEL_NAME "labelShow" "show"]) = .ok (some label) ∧
          w.threadsModify (tr ++ [.enter .sendReply [threadId, subject, message, senderEmail],
            .labelsCreate LABEL_NAME "labelShow" "show", .resume,
            .threadsModify threadId [label.id]]) = .ok () ∧
          w.messagesSend (tr ++ [.enter .sendReply [threadId, subject, message, senderEmail],
            .labelsCreate LABEL_NAME "labelShow" "show", .resume,
            .threadsModify threadId [label.id], .resume,
            .messagesSend (base64 (utf8Encode (emailContent subject senderEmail message)))
              threadId]) = .error err ∧
          new = [.enter .sendReply [threadId, subject, message, senderEmail],
            .labelsCreate LABEL_NAME "labelShow" "show", .resume,
            .threadsModify threadId [label.id], .resume,
            .messagesSend (base64 (utf8Encode (emailContent subject senderEmail message)))
              threadId, .resume] ++ catchEvents err) ∨
       (∃ label,
          w.labelsCreate (tr ++ [.enter .sendReply [threadId, subject, message, senderEmail],
            .labelsCreate LABEL_NAME "labelShow" "show"]) = .ok (some label) ∧
          w.threadsModify (tr ++ [.enter .sendReply [threadId, subject, message, senderEmail],
            .labelsCreate LABEL_NAME "labelShow" "show", .resume,
            .threadsModify threadId [label.id]]) = .ok () ∧
          w.messagesSend (tr ++ [.enter .sendReply [threadId, subject, message, senderEmail],
            .labelsCreate LABEL_NAME "labelShow" "show", .resume,
            .threadsModify threadId [label.id], .resume,
            .messagesSend (base64 (utf8Encode (emailContent subject senderEmail message)))
              threadId]) = .ok () ∧
          new = [.enter .sendReply [threadId, subject, message, senderEmail],
            .labelsCreate LABEL_NAME "labelShow" "show", .resume,
            .threadsModify threadId [label.id], .resume,
            .messagesSend (base64 (utf8Encode (emailContent subject senderEmail message)))
              threadId, .resume, .consoleLog ["Reply sent."]])) := by
  simp only [sendReply, run_bind, run_emit, run_tryCatch, run_await, run_request,
    List.append_assoc, List.singleton_append, List.cons_append, List.nil_append]
  cases hc : w.labelsCreate (tr ++ [.enter .sendReply [threadId, subject, message, senderEmail],
      .labelsCreate LABEL_NAME "labelShow" "show"]) with
  | error err =>
    refine ⟨_, ?_, Or.inl ⟨err, rfl, rfl⟩⟩
    simp [catchEvents_run]
  | ok label =>
    cases label with
    | none =>
      refine ⟨_, ?_, Or.inr (Or.inl ⟨rfl, rfl⟩)⟩
      simp
    | some label =>
      cases hm : w.threadsModify (tr ++ [.enter .sendReply [threadId, subject, message, senderEmail],
          .labelsCreate LABEL_NAME "labelShow" "show", .resume,
          .threadsModify threadId [label.id]]) with
      | error err =>
        refine ⟨_, ?_, Or.inr (Or.inr (Or.inl ⟨label, err, rfl, hm, rfl⟩))⟩
        simp [catchEvents_run, hm]
      | ok u =>
        cases hs : w.messagesSend (tr ++ [.enter .sendReply [threadId, subject, message, senderEmail],
            .labelsCreate LABEL_NAME "labelShow" "show", .resume,
            .threadsModify threadId [label.id], .resume,
            .messagesSend (base64 (utf8Encode (emailContent subject senderEmail message)))
              threadId]) with
        | error err =>
          refine ⟨_, ?_, Or.inr (Or.inr (Or.inr (Or.inl ⟨label, err, rfl, hm, hs, rfl⟩)))⟩
          simp [catchEvents_run, hm, hs]
        | ok u2 =>
          refine ⟨_, ?_, Or.inr (Or.inr (Or.inr (Or.inr ⟨label, rfl, hm, hs, rfl⟩)))⟩
          simp [hm, hs]

/-- If `y` stands in a list after the block `a` and `x` stands at some place of the list
outside `a` and is not `y`, then `y` comes before that place. -/
theorem mem_before_of_split {x y : Ev} {l pre post a b : List Ev}
    (h1 : l = pre ++ x :: post) (h2 : l = a ++ y :: b) (hxa : x ∉ a) (hxy : x ≠ y) :
    y ∈ pre := by
  rw [h1] at h2
  rcases List.append_eq_append_iff.mp h2 with ⟨a1, ha, hb⟩ | ⟨c1, hc, hd⟩
  · cases a1 with
    | nil =>
      simp only [List.nil_append, List.cons.injEq] at hb
      exact absurd hb.1 hxy
    | cons z a2 =>
      simp only [List.cons_append, List.cons.injEq] at hb
      exact absurd (by rw [ha]; simp [hb.1]) hxa
  · cases c1 with
    | nil =>
      simp only [List.nil_append, List.cons.injEq] at hd
      exact absurd hd.1.symm hxy
    | cons z c2 =>
      simp only [List.cons_append, List.cons.injEq] at hd
      rw [hc, hd.1]
      simp

theorem headerValue_run (name : String) (headers : List Header) (tr : List Ev) :
    (headerValue name headers).run tr =
      match findHeader name headers with
      | some header => (.ok header.value, tr)
      | none => (.error (typeErrorUndefined "value"), tr) := by
  unfold headerValue
  split <;> rfl

/-- Every call of `handleEmail` returns normally and follows one of four paths. -/
theorem handleEmail_paths (w : World) (threadId : String) (tr : List Ev) :
    ∃ new, (handleEmail w threadId).run tr = (.ok (), tr ++ new) ∧
      ((∃ err, w.threadsGet (tr ++ [.enter .handleEmail [threadId], .threadsGet threadId])
            = .error err ∧
          new = [.enter .handleEmail [threadId], .threadsGet threadId, .resume,
            .consoleError ["An error occurred: " ++ err.message]]) ∨
       (∃ thread, w.threadsGet (tr ++ [.enter .handleEmail [threadId], .threadsGet threadId])
            = .ok thread ∧ thread.messages.length ≠ 1 ∧
          new = [.enter .handleEmail [threadId], .threadsGet threadId, .resume]) ∨
       (∃ first, w.threadsGet (tr ++ [.enter .handleEmail [threadId], .threadsGet threadId])
            = .ok ⟨[first]⟩ ∧
          (findHeader "Subject" first.headers = none ∨
            findHeader "From" first.headers = none) ∧
          new = [.enter .handleEmail [threadId], .threadsGet threadId, .resume,
            .consoleError ["An error occurred: " ++ (typeErrorUndefined "value").message]]) ∨
       (∃ first subjectHeader fromHeader replyEvents,
          w.threadsGet (tr ++ [.enter .handleEmail [threadId], .threadsGet threadId])
            = .ok ⟨[first]⟩ ∧
          findHeader "Subject" first.headers = some subjectHeader ∧
          findHeader "From" first.headers = some fromHeader ∧
          (sendReply w threadId subjectHeader.value "Your automatic reply message here."
              fromHeader.value).run
            (tr ++ [.enter .handleEmail [threadId], .threadsGet threadId, .resume,
              .consoleLog ["Subject: ", subjectHeader.value],
              .consoleLog ["Sender Email: ", fromHeader.value]]) =
            (.ok (), (tr ++ [.enter .handleEmail [threadId], .threadsGet threadId, .resume,
              .consoleLog ["Subject: ", subjectHeader.value],
              .consoleLog ["Sender Email: ", fromHeader.value]]) ++ replyEvents) ∧
          new = [.enter .handleEmail [threadId], .threadsGet threadId, .resume,
              .consoleLog ["Subject: ", subjectHeader.value],
              .consoleLog ["Sender Email: ", fromHeader.value]] ++ replyEvents ++ [.resume])) := by
  cases hg : w.threadsGet (tr ++ [.enter .handleEmail [threadId], .threadsGet threadId]) with
  | error err =>
    refine ⟨_, ?_, Or.inl ⟨err, rfl, rfl⟩⟩
    simp [handleEmail, hg]
  | ok thread =>
    by_cases hlen : thread.messages.length = 1
    · obtain ⟨msgs⟩ := thread
      obtain ⟨first, rfl⟩ : ∃ first, msgs = [first] := List.length_eq_one.mp hlen
      cases hsub : findHeader "Subject" first.headers with
      | none =>
        refine ⟨_, ?_, Or.inr (Or.inr (Or.inl ⟨first, rfl, Or.inl hsub, rfl⟩))⟩
        simp [handleEmail, hg, headerValue_run, hsub]
      | some subjectHeader =>
        cases hfrom : findHeader "From" first.headers with
        | none =>
          refine ⟨_, ?_, Or.inr (Or.inr (Or.inl ⟨first, rfl, Or.inr hfrom, rfl⟩))⟩
          simp [handleEmail, hg, headerValue_run, hsub, hfrom]
        | some fromHeader =>
          obtain ⟨replyEvents, hrun, -⟩ := sendReply_paths w threadId subjectHeader.value
            "Your automatic reply message here." fromHeader.value
            (tr ++ [.enter .handleEmail [threadId], .threadsGet threadId, .resume,
              .consoleLog ["Subject: ", subjectHeader.value],
              .consoleLog ["Sender Email: ", fromHeader.value]])
          refine ⟨_, ?_, Or.inr (Or.inr (Or.inr
            ⟨first, subjectHeader, fromHeader, replyEvents, rfl, hsub, hfrom, hrun, rfl⟩))⟩
          simp only [List.append_assoc, List.singleton_append, List.cons_append,
            List.nil_append] at hrun
          simp [handleEmail, hg, headerValue_run, hsub, hfrom, hrun]
    · refine ⟨_, ?_, Or.inr (Or.inl ⟨thread, rfl, hlen, rfl⟩)⟩
      simp [handleEmail, hg, hlen]

/-! ## The loop of the scanner -/

theorem handleEmailCalls_append (a b : List Ev) :
    handleEmailCalls (a ++ b) = handleEmailCalls a ++ handleEmailCalls b := by
  simp [handleEmailCalls]

theorem handleEmailCalls_catchEvents (err : JsError) : handleEmailCalls (catchEvents err) = [] := by
  unfold catchEvents
  split <;> rfl

/-- The events of `sendReply` hold no call of `handleEmail`. -/
theorem sendReply_calls (w : World) (threadId subject message senderEmail : String)
    (tr new : List Ev)
    (h : (sendReply w threadId subject message senderEmail).run tr = (.ok (), tr ++ new)) :
    handleEmailCalls new = [] := by
  obtain ⟨new1, hrun, hpaths⟩ := sendReply_paths w threadId subject message senderEmail tr
  rw [hrun] at h
  have hnew : new1 = new := List.append_cancel_left (Prod.mk.inj h).2
  subst hnew
  rcases hpaths with ⟨err, -, rfl⟩ | ⟨-, rfl⟩ | ⟨label, err, -, -, rfl⟩ |
    ⟨label, err, -, -, -, rfl⟩ | ⟨label, -, -, -, rfl⟩
  · rw [handleEmailCalls_append, handleEmailCalls_catchEvents]; rfl
  · rfl
  · rw [handleEmailCalls_append, handleEmailCalls_catchEvents]; rfl
  · rw [handleEmailCalls_append, handleEmailCalls_catchEvents]; rfl
  · rfl

/-- Every call of `handleEmail` returns normally, extends the trace, and records
exactly one call of `handleEmail`: its own. -/
theorem handleEmail_run_calls (w : World) (threadId : String) (tr : List Ev) :
    ∃ new, (handleEmail w threadId).run tr = (.ok (), tr ++ new) ∧
      handleEmailCalls new = [threadId] := by
  obtain ⟨new, hrun, hpaths⟩ := handleEmail_paths w threadId tr
  refine ⟨new, hrun, ?_⟩
  rcases hpaths with ⟨err, -, rfl⟩ | ⟨thread, -, -, rfl⟩ | ⟨first, -, -, rfl⟩ |
    ⟨first, subjectHeader, fromHeader, replyEvents, -, -, -, hreply, rfl⟩
  · rfl
  · rfl
  · rfl
  · rw [handleEmailCalls_append, handleEmailCalls_append,
      sendReply_calls _ _ _ _ _ _ _ hreply]
    rfl

theorem forEachMessage_cons_run (w : World) (message : MessageRef) (rest : List MessageRef)
    (tr : List Ev) :
    (forEachMessage w (message :: rest)).run tr =
      (forEachMessage w rest).run (((handleEmail w message.threadId).run tr).2 ++ [.resume]) := by
  obtain ⟨new, hrun, -⟩ := handleEmail_run_calls w message.threadId tr
  simp [forEachMessage, hrun]

/-- The loop returns normally and calls `handleEmail` once for each listed message, in
the order of the list. -/
theorem forEachMessage_run_calls (w : World) (messages : List MessageRef) :
    ∀ tr, ∃ new, (forEachMessage w messages).run tr = (.ok (), tr ++ new) ∧
      handleEmailCalls new = messages.map (fun m => m.threadId) := by
  induction messages with
  | nil =>
    intro tr
    exact ⟨[], by simp [forEachMessage], rfl⟩
  | cons message rest ih =>
    intro tr
    obtain ⟨new1, hrun1, hcalls1⟩ := handleEmail_run_calls w message.threadId tr
    obtain ⟨new2, hrun2, hcalls2⟩ := ih (tr ++ new1 ++ [.resume])
    refine ⟨new1 ++ [.resume] ++ new2, ?_, ?_⟩
    · rw [forEachMessage_cons_run, hrun1, hrun2]
      simp
    · rw [handleEmailCalls_append, handleEmailCalls_append, hcalls1, hcalls2]
      rfl

theorem forEachMessage_append_run (w : World) (before rest : List MessageRef) :
    ∀ tr, (forEachMessage w (before ++ rest)).run tr =
      (forEachMessage w rest).run ((forEachMessage w before).run tr).2 := by
  induction before with
  | nil =>
    intro tr
    simp [forEachMessage]
  | cons message before ih =>
    intro tr
    rw [List.cons_append, forEachMessage_cons_run, forEachMessage_cons_run, ih]

/-- For a scan that returns a non-empty list with a non-zero estimate, the scanner is
the list request followed by the loop over the listed messages. -/
theorem listMessages_run_loop (w : World) (tr : List Ev) (est : Nat)
    (messages : List MessageRef)
    (hlist : w.messagesList (tr ++ [.messagesList "is:unread -in:sent -in:chat"])
      = .ok ⟨est, some messages⟩)
    (hest : est ≠ 0) (hne : messages ≠ []) :
    (listMessagesWithNoReplies w).run tr =
      (forEachMessage w messages).run
        (tr ++ [.messagesList "is:unread -in:sent -in:chat", .resume]) := by
  obtain ⟨new, hrun, -⟩ := forEachMessage_run_calls w messages
    (tr ++ [.messagesList "is:unread -in:sent -in:chat", .resume])
  simp only [List.append_assoc, List.singleton_append, List.cons_append,
    List.nil_append] at hrun
  simp [listMessagesWithNoReplies, hlist, hest, hne, hrun]

/-- For a scan that returns a non-empty list with a non-zero estimate, the calls of
`handleEmail` in a pass are the thread ids of the listed messages, in list order. -/
theorem listMessages_calls_nonempty (w : World) (tr : List Ev) (est : Nat)
    (messages : List MessageRef)
    (hlist : w.messagesList (tr ++ [.messagesList "is:unread -in:sent -in:chat"])
      = .ok ⟨est, some messages⟩)
    (hest : est ≠ 0) (hne : messages ≠ []) :
    handleEmailCalls ((listMessagesWithNoReplies w).events tr)
      = messages.map (fun m => m.threadId) := by
  have hloop := listMessages_run_loop w tr est messages hlist hest hne
  obtain ⟨new, hrun, hcalls⟩ := forEachMessage_run_calls w messages
    (tr ++ [.messagesList "is:unread -in:sent -in:chat", .resume])
  have hev : (listMessagesWithNoReplies w).events tr =
      [.messagesList "is:unread -in:sent -in:chat", .resume] ++ new := by
    simp only [Js.events, hloop, hrun, List.append_assoc, List.drop_left]
  rw [hev, handleEmailCalls_append, hcalls]
  rfl

/-! ## Claims about the thread inspector and the responder -/

/-- C1: when the fetched thread has more than one message, `handleEmail` only enters,
issues the thread fetch and resumes: `sendReply` is not called and no label is
created, no thread is modified and no message is sent. -/
theorem handleEmail_skips_replied_thread (w : World) (threadId : String) (tr : List Ev)
    (thread : Thread)
    (hget : w.threadsGet (tr ++ [.enter .handleEmail [threadId], .threadsGet threadId])
      = .ok thread)
    (hlen : 1 < thread.messages.length) :
    (handleEmail w threadId).run tr =
        (.ok (), tr ++ [.enter .handleEmail [threadId], .threadsGet threadId, .resume]) ∧
      (∀ args, Ev.enter .sendReply args ∉ (handleEmail w threadId).events tr) ∧
      (∀ e ∈ (handleEmail w threadId).events tr, e.isMutation = false) := by
  have hrun : (handleEmail w threadId).run tr =
      (.ok (), tr ++ [.enter .handleEmail [threadId], .threadsGet threadId, .resume]) := by
    have hne : thread.messages.length ≠ 1 := by omega
    simp [handleEmail, hget, hne]
  refine ⟨hrun, ?_, ?_⟩
  · intro args
    simp [Js.events, hrun]
  · intro e he
    simp only [Js.events, hrun, List.drop_left, List.mem_cons, List.mem_singleton,
      List.not_mem_nil, or_false] at he
    rcases he with rfl | rfl | rfl <;> rfl

/-- Witness of C1: a thread of two messages. -/
theorem handleEmail_skips_replied_thread_witness :
    1 < (Thread.mk [⟨[⟨"Subject", "Hello"⟩]⟩, ⟨[⟨"Subject", "Re: Hello"⟩]⟩]).messages.length ∧
    ((handleEmail repliedWorld "t1").run [] =
        (.ok (), [] ++ [.enter .handleEmail ["t1"], .threadsGet "t1", .resume]) ∧
      (∀ args, Ev.enter .sendReply args ∉ (handleEmail repliedWorld "t1").events []) ∧
      (∀ e ∈ (handleEmail repliedWorld "t1").events [], e.isMutation = false)) :=
  ⟨by decide, handleEmail_skips_replied_thread repliedWorld "t1" [] _ rfl (by decide)⟩

/-- C3: a call of `sendReply` whose label creation fails with status 409 logs nothing,
and it issues neither the thread modification nor the send: the trace ends after the
failed creation. -/
theorem sendReply_conflict_sends_nothing :
    (sendReply conflictWorld "t1" "Hello" "Your automatic reply message here."
        "a@example.com").run [] =
      (.ok (), [.enter .sendReply
          ["t1", "Hello", "Your automatic reply message here.", "a@example.com"],
        .labelsCreate "testing" "labelShow" "show", .resume]) := by
  rfl

/-- C5: for an empty message list with `resultSizeEstimate` 0 the scanner issues the
list request and resumes; nothing is logged and no further request is made. -/
theorem listMessages_empty_estimate_zero_logs_nothing :
    (listMessagesWithNoReplies emptyWorld).run [] =
      (.ok (), [.messagesList "is:unread -in:sent -in:chat", .resume]) := by
  rfl

/-- C2: whenever `sendReply` issues a send, the request carries the thread id the
function was given, and its `raw` field is the base64 text of the UTF-8 bytes of
`"Subject: Re: " + subject + "\n" + "To: " + sender + "\n\n" + body`; decoding `raw`
gives that message back. -/
theorem sendReply_send_payload (w : World) (threadId subject message senderEmail : String)
    (tr : List Ev) (raw t : String)
    (h : Ev.messagesSend raw t ∈ (sendReply w threadId subject message senderEmail).events tr) :
    t = threadId ∧
      raw = base64 (utf8Encode
        ("Subject: Re: " ++ subject ++ "\nTo: " ++ senderEmail ++ "\n\n" ++ message)) ∧
      (base64Decode raw).bind utf8Decode =
        some ("Subject: Re: " ++ subject ++ "\nTo: " ++ senderEmail ++ "\n\n" ++ message) := by
  have hdec : (base64Decode (base64 (utf8Encode (emailContent subject senderEmail message)))).bind
      utf8Decode = some (emailContent subject senderEmail message) := by
    rw [base64Decode_base64_utf8]
    exact utf8Decode_utf8Encode _
  obtain ⟨new, hrun, hpaths⟩ := sendReply_paths w threadId subject message senderEmail tr
  simp only [Js.events, hrun, List.drop_left] at h
  rcases hpaths with ⟨err, -, rfl⟩ | ⟨-, rfl⟩ | ⟨label, err, -, -, rfl⟩ |
    ⟨label, err, -, -, -, rfl⟩ | ⟨label, -, -, -, rfl⟩
  · simp [catchEvents] at h
  · simp at h
  · simp [catchEvents] at h
  · simp [catchEvents] at h
    obtain ⟨h1, h2⟩ := h
    subst h1 h2
    exact ⟨rfl, rfl, hdec⟩
  · simp at h
    obtain ⟨h1, h2⟩ := h
    subst h1 h2
    exact ⟨rfl, rfl, hdec⟩

/-- Witness of C2: in a world where every call succeeds, the reply to subject `Hello`
from `a@example.com` is sent with the expected `raw` text. -/
theorem sendReply_send_payload_witness :
    Ev.messagesSend
        "U3ViamVjdDogUmU6IEhlbGxvClRvOiBhQGV4YW1wbGUuY29tCgpZb3VyIGF1dG9tYXRpYyByZXBseSBtZXNzYWdlIGhlcmUu"
        "t1"
      ∈ (sendReply okWorld "t1" "Hello" "Your automatic reply message here."
          "a@example.com").events [] ∧
    ("t1" = "t1" ∧
      "U3ViamVjdDogUmU6IEhlbGxvClRvOiBhQGV4YW1wbGUuY29tCgpZb3VyIGF1dG9tYXRpYyByZXBseSBtZXNzYWdlIGhlcmUu"
        = base64 (utf8Encode ("Subject: Re: " ++ "Hello" ++ "\nTo: " ++ "a@example.com" ++ "\n\n"
            ++ "Your automatic reply message here.")) ∧
      (base64Decode
        "U3ViamVjdDogUmU6IEhlbGxvClRvOiBhQGV4YW1wbGUuY29tCgpZb3VyIGF1dG9tYXRpYyByZXBseSBtZXNzYWdlIGhlcmUu").bind
          utf8Decode =
        some ("Subject: Re: " ++ "Hello" ++ "\nTo: " ++ "a@example.com" ++ "\n\n"
            ++ "Your automatic reply message here.")) :=
  ⟨by decide, sendReply_send_payload okWorld "t1" "Hello" "Your automatic reply message here."
    "a@example.com" [] _ _ (by decide)⟩

/-- C10: when label creation fails with a code other than 409, `sendReply` logs the
error and issues neither a thread modification nor a send; in every call a send is
preceded by the modification of the same thread; and when the modification fails no
send is issued. -/
theorem sendReply_label_failure_and_order (w : World)
    (threadId subject message senderEmail : String) (tr : List Ev) :
    (∀ err, w.labelsCreate (tr ++ [.enter .sendReply [threadId, subject, message, senderEmail],
          .labelsCreate LABEL_NAME "labelShow" "show"]) = .error err →
        err.code ≠ .num 409 →
        (sendReply w threadId subject message senderEmail).run tr =
          (.ok (), tr ++ [.enter .sendReply [threadId, subject, message, senderEmail],
            .labelsCreate LABEL_NAME "labelShow" "show", .resume,
            .consoleLog ["Error creating label or sending message: " ++ err.toText]])) ∧
    (∀ pre post raw t,
        (sendReply w threadId subject message senderEmail).events tr
          = pre ++ Ev.messagesSend raw t :: post →
        ∃ ids, Ev.threadsModify threadId ids ∈ pre) ∧
    (∀ label err,
        w.labelsCreate (tr ++ [.enter .sendReply [threadId, subject, message, senderEmail],
          .labelsCreate LABEL_NAME "labelShow" "show"]) = .ok (some label) →
        w.threadsModify (tr ++ [.enter .sendReply [threadId, subject, message, senderEmail],
          .labelsCreate LABEL_NAME "labelShow" "show", .resume,
          .threadsModify threadId [label.id]]) = .error err →
        ∀ raw t, Ev.messagesSend raw t ∉
          (sendReply w threadId subject message senderEmail).events tr) := by
  obtain ⟨new, hrun, hpaths⟩ := sendReply_paths w threadId subject message senderEmail tr
  refine ⟨?_, ?_, ?_⟩
  · intro err hc hne
    have hstrict : err.code.strictNe409 = true := by
      cases hcode : err.code with
      | undefined => rfl
      | str s => rfl
      | num n =>
        have : n ≠ 409 := fun h => hne (by rw [hcode, h])
        simp [ErrCode.strictNe409, this]
    simp [sendReply, hc, hstrict]
  · intro pre post raw t hsplit
    simp only [Js.events, hrun, List.drop_left] at hsplit
    have hmem : Ev.messagesSend raw t ∈ new := by rw [hsplit]; simp
    rcases hpaths with ⟨err, -, rfl⟩ | ⟨-, rfl⟩ | ⟨label, err, -, -, rfl⟩ |
      ⟨label, err, -, -, -, rfl⟩ | ⟨label, -, -, -, rfl⟩
    · simp [catchEvents] at hmem
    · simp at hmem
    · simp [catchEvents] at hmem
    · exact ⟨[label.id], mem_before_of_split hsplit
        (a := [.enter .sendReply [threadId, subject, message, senderEmail],
          .labelsCreate LABEL_NAME "labelShow" "show", .resume])
        rfl (by simp) (by simp)⟩
    · exact ⟨[label.id], mem_before_of_split hsplit
        (a := [.enter .sendReply [threadId, subject, message, senderEmail],
          .labelsCreate LABEL_NAME "labelShow" "show", .resume])
        rfl (by simp) (by simp)⟩
  · intro label err hc hm raw t
    have hrun2 : (sendReply w threadId subject message senderEmail).run tr =
        (.ok (), tr ++ ([.enter .sendReply [threadId, subject, message, senderEmail],
          .labelsCreate LABEL_NAME "labelShow" "show", .resume,
          .threadsModify threadId [label.id], .resume] ++ catchEvents err)) := by
      simp [sendReply, hc, hm, catchEvents_run]
    simp only [Js.events, hrun2, List.drop_left]
    simp [catchEvents]

/-- Witness of C10: a label creation failing with status 500 is logged and ends the
call; in a call that sends, the modification of thread `t1` precedes the send. -/
theorem sendReply_label_failure_and_order_witness :
    (sendReply labelFailWorld "t1" "Hello" "Your automatic reply message here."
        "a@example.com").run [] =
      (.ok (), [] ++ [.enter .sendReply
          ["t1", "Hello", "Your automatic reply message here.", "a@example.com"],
        .labelsCreate LABEL_NAME "labelShow" "show", .resume,
        .consoleLog ["Error creating label or sending message: " ++ serverError.toText]]) ∧
    (∃ ids, Ev.threadsModify "t1" ids ∈
      [Ev.enter .sendReply ["t1", "Hello", "Your automatic reply message here.", "a@example.com"],
        .labelsCreate LABEL_NAME "labelShow" "show", .resume,
        .threadsModify "t1" ["Label_1"], .resume]) :=
  ⟨(sendReply_label_failure_and_order labelFailWorld "t1" "Hello"
      "Your automatic reply message here." "a@example.com" []).1 serverError rfl (by decide),
   (sendReply_label_failure_and_order okWorld "t1" "Hello"
      "Your automatic reply message here." "a@example.com" []).2.1
      [Ev.enter .sendReply ["t1", "Hello", "Your automatic reply message here.", "a@example.com"],
        .labelsCreate LABEL_NAME "labelShow" "show", .resume,
        .threadsModify "t1" ["Label_1"], .resume]
      [.resume, .consoleLog ["Reply sent."]]
      "U3ViamVjdDogUmU6IEhlbGxvClRvOiBhQGV4YW1wbGUuY29tCgpZb3VyIGF1dG9tYXRpYyByZXBseSBtZXNzYWdlIGhlcmUu"
      "t1" (by decide)⟩

/-- C8 as stated fails: for a thread whose single message has no `From` header the
lookup error does not leave `handleEmail`; the call returns normally. -/
theorem handleEmail_missing_header_not_raised :
    ¬ ∃ e, ((handleEmail noFromWorld "t1").run []).1 = .error e := by
  rintro ⟨e, he⟩
  have hok : ((handleEmail noFromWorld "t1").run []).1 = .ok () := rfl
  rw [hok] at he
  cases he

/-- C8, amended: when the single message of the fetched thread lacks the `Subject` or
the `From` header, the `TypeError` of the lookup is caught by the `catch` block of
`handleEmail` itself, which logs its message; `handleEmail` returns normally and
`sendReply` is not called. -/
theorem handleEmail_missing_header_caught (w : World) (threadId : String) (tr : List Ev)
    (first : Message)
    (hget : w.threadsGet (tr ++ [.enter .handleEmail [threadId], .threadsGet threadId])
      = .ok ⟨[first]⟩)
    (hmiss : findHeader "Subject" first.headers = none ∨
      findHeader "From" first.headers = none) :
    (handleEmail w threadId).run tr =
        (.ok (), tr ++ [.enter .handleEmail [threadId], .threadsGet threadId, .resume,
          .consoleError ["An error occurred: " ++ (typeErrorUndefined "value").message]]) ∧
      (∀ args, Ev.enter .sendReply args ∉ (handleEmail w threadId).events tr) := by
  have hrun : (handleEmail w threadId).run tr =
      (.ok (), tr ++ [.enter .handleEmail [threadId], .threadsGet threadId, .resume,
        .consoleError ["An error occurred: " ++ (typeErrorUndefined "value").message]]) := by
    cases hsub : findHeader "Subject" first.headers with
    | none => simp [handleEmail, hget, headerValue_run, hsub]
    | some subjectHeader =>
      have hfrom : findHeader "From" first.headers = none := by
        rcases hmiss with h | h
        · rw [hsub] at h; cases h
        · exact h
      simp [handleEmail, hget, headerValue_run, hsub, hfrom]
  refine ⟨hrun, ?_⟩
  intro args
  simp [Js.events, hrun]

/-- Witness of C8, amended: a thread whose single message has only a `Subject`
header. -/
theorem handleEmail_missing_header_caught_witness :
    (findHeader "Subject" (Message.mk [⟨"Subject", "Hello"⟩]).headers = none ∨
      findHeader "From" (Message.mk [⟨"Subject", "Hello"⟩]).headers = none) ∧
    ((handleEmail noFromWorld "t1").run [] =
        (.ok (), [] ++ [.enter .handleEmail ["t1"], .threadsGet "t1", .resume,
          .consoleError ["An error occurred: " ++ (typeErrorUndefined "value").message]]) ∧
      (∀ args, Ev.enter .sendReply args ∉ (handleEmail noFromWorld "t1").events [])) :=
  ⟨Or.inr (by decide),
    handleEmail_missing_header_caught noFromWorld "t1" [] ⟨[⟨"Subject", "Hello"⟩]⟩ rfl
      (Or.inr (by decide))⟩

/-! ## Claims about the scanner -/

/-- C6: for a non-empty list of message references with a non-zero estimate, whatever
the outcomes of the later calls, `listMessagesWithNoReplies` returns normally and calls
`handleEmail` for every listed message in the order returned; when the fetch of a
listed thread throws, the error's message text is logged and the loop goes on with the
messages after it. -/
theorem listMessages_handles_every_message (w : World) (tr : List Ev) (est : Nat)
    (messages : List MessageRef)
    (hlist : w.messagesList (tr ++ [.messagesList "is:unread -in:sent -in:chat"])
      = .ok ⟨est, some messages⟩)
    (hest : est ≠ 0) (hne : messages ≠ []) :
    ((listMessagesWithNoReplies w).run tr).1 = .ok () ∧
    handleEmailCalls ((listMessagesWithNoReplies w).events tr)
      = messages.map (fun m => m.threadId) ∧
    (∀ before message after err, messages = before ++ message :: after →
      w.threadsGet
        (((forEachMessage w before).run
            (tr ++ [.messagesList "is:unread -in:sent -in:chat", .resume])).2 ++
          [.enter .handleEmail [message.threadId], .threadsGet message.threadId])
        = .error err →
      (listMessagesWithNoReplies w).run tr =
        (forEachMessage w after).run
          (((forEachMessage w before).run
              (tr ++ [.messagesList "is:unread -in:sent -in:chat", .resume])).2 ++
            [.enter .handleEmail [message.threadId], .threadsGet message.threadId, .resume,
              .consoleError ["An error occurred: " ++ err.message], .resume])) := by
  have hloop := listMessages_run_loop w tr est messages hlist hest hne
  obtain ⟨new, hrun, hcalls⟩ := forEachMessage_run_calls w messages
    (tr ++ [.messagesList "is:unread -in:sent -in:chat", .resume])
  refine ⟨?_, ?_, ?_⟩
  · rw [hloop, hrun]
  · exact listMessages_calls_nonempty w tr est messages hlist hest hne
  · intro before message after err hsplit hget
    rw [hloop, hsplit, forEachMessage_append_run, forEachMessage_cons_run]
    have hh : (handleEmail w message.threadId).run
        ((forEachMessage w before).run
          (tr ++ [.messagesList "is:unread -in:sent -in:chat", .resume])).2 =
        (.ok (), ((forEachMessage w before).run
          (tr ++ [.messagesList "is:unread -in:sent -in:chat", .resume])).2 ++
          [.enter .handleEmail [message.threadId], .threadsGet message.threadId, .resume,
            .consoleError ["An error occurred: " ++ err.message]]) := by
      simp [handleEmail, hget]
    rw [hh]
    simp

/-- Witness of C6: two messages are listed and the fetch of the first thread throws;
the error is logged and the second message is handled. -/
theorem listMessages_handles_every_message_witness :
    (2 ≠ 0 ∧ [MessageRef.mk "m1" "t1", MessageRef.mk "m2" "t2"] ≠ []) ∧
    (((listMessagesWithNoReplies fetchFailWorld).run []).1 = .ok () ∧
    handleEmailCalls ((listMessagesWithNoReplies fetchFailWorld).events []) = ["t1", "t2"] ∧
    (listMessagesWithNoReplies fetchFailWorld).run [] =
        (forEachMessage fetchFailWorld [MessageRef.mk "m2" "t2"]).run
          [.messagesList "is:unread -in:sent -in:chat", .resume,
            .enter .handleEmail ["t1"], .threadsGet "t1", .resume,
            .consoleError ["An error occurred: Backend Error"], .resume]) :=
  ⟨⟨by decide, by decide⟩,
    (listMessages_handles_every_message fetchFailWorld [] 2
      [MessageRef.mk "m1" "t1", MessageRef.mk "m2" "t2"] rfl (by decide) (by decide)).1,
    (listMessages_handles_every_message fetchFailWorld [] 2
      [MessageRef.mk "m1" "t1", MessageRef.mk "m2" "t2"] rfl (by decide) (by decide)).2.1,
    (listMessages_handles_every_message fetchFailWorld [] 2
      [MessageRef.mk "m1" "t1", MessageRef.mk "m2" "t2"] rfl (by decide) (by decide)).2.2
      [] ⟨"m1", "t1"⟩ [⟨"m2", "t2"⟩] serverError rfl rfl⟩

/-- C7 as stated fails: when two listed messages share a thread id, that thread id is
passed to `handleEmail` twice in one pass. -/
theorem listMessages_same_thread_twice :
    handleEmailCalls ((listMessagesWithNoReplies sameThreadWorld).events []) = ["t1", "t1"] ∧
    ¬ (handleEmailCalls ((listMessagesWithNoReplies sameThreadWorld).events [])).Nodup := by
  decide

/-- C7, amended: in one pass `handleEmail` is called once per listed message, with that
message's thread id and in list order (and not at all when the estimate is 0); so a
thread id is passed as often as it is listed, and no thread id is passed more than once
when the listed messages have distinct thread ids. -/
theorem listMessages_calls_per_message (w : World) (tr : List Ev) (est : Nat)
    (messages : List MessageRef)
    (hlist : w.messagesList (tr ++ [.messagesList "is:unread -in:sent -in:chat"])
      = .ok ⟨est, some messages⟩) :
    handleEmailCalls ((listMessagesWithNoReplies w).events tr)
        = (if est = 0 then [] else messages.map (fun m => m.threadId)) ∧
      ((messages.map (fun m => m.threadId)).Nodup →
        (handleEmailCalls ((listMessagesWithNoReplies w).events tr)).Nodup) := by
  have hcalls : handleEmailCalls ((listMessagesWithNoReplies w).events tr)
      = (if est = 0 then [] else messages.map (fun m => m.threadId)) := by
    by_cases hest : est = 0
    · simp [Js.events, listMessagesWithNoReplies, hlist, hest, handleEmailCalls, handleEmailArg]
    · by_cases hne : messages = []
      · simp [Js.events, listMessagesWithNoReplies, hlist, hest, hne, handleEmailCalls,
          handleEmailArg]
      · rw [if_neg hest]
        exact listMessages_calls_nonempty w tr est messages hlist hest hne
  refine ⟨hcalls, ?_⟩
  intro hnodup
  rw [hcalls]
  split
  · exact List.nodup_nil
  · exact hnodup

/-- Witness of C7, amended: two listed messages of two threads. -/
theorem listMessages_calls_per_message_witness :
    (["t1", "t2"] : List String).Nodup ∧
    handleEmailCalls ((listMessagesWithNoReplies okWorld).events []) = ["t1", "t2"] ∧
    (handleEmailCalls ((listMessagesWithNoReplies okWorld).events [])).Nodup :=
  ⟨by decide,
    (listMessages_calls_per_message okWorld [] 2 [⟨"m1", "t1"⟩, ⟨"m2", "t2"⟩] rfl).1,
    (listMessages_calls_per_message okWorld [] 2 [⟨"m1", "t1"⟩, ⟨"m2", "t2"⟩] rfl).2
      (by decide)⟩

/-! ## Rounding lemmas -/

theorem roundHalfEven_le {t : ℚ} {n : ℤ} (h : t ≤ n) : roundHalfEven t ≤ n := by
  have hf : (⌊t⌋ : ℚ) ≤ t := Int.floor_le t
  have hfn : ⌊t⌋ ≤ n := by exact_mod_cast hf.trans h
  have hup : ¬ (t - ⌊t⌋ < 1 / 2) → ⌊t⌋ + 1 ≤ n := by
    intro hh
    have : (⌊t⌋ : ℚ) < n := by linarith
    have : ⌊t⌋ < n := by exact_mod_cast this
    omega
  unfold roundHalfEven
  split_ifs with h1 h2 h3
  · exact hfn
  · exact hup h1
  · exact hfn
  · exact hup h1

theorem le_roundHalfEven {t : ℚ} {n : ℤ} (h : (n : ℚ) ≤ t) : n ≤ roundHalfEven t := by
  have hfn : n ≤ ⌊t⌋ := Int.le_floor.mpr h
  unfold roundHalfEven
  split_ifs <;> omega

theorem roundHalfEven_le_pred {t : ℚ} {n : ℤ} (h : t < n - 1 / 2) : roundHalfEven t ≤ n - 1 := by
  have hf : (⌊t⌋ : ℚ) ≤ t := Int.floor_le t
  have hfn : ⌊t⌋ ≤ n - 1 := by
    have : (⌊t⌋ : ℚ) < n := by linarith
    have : ⌊t⌋ < n := by exact_mod_cast this
    omega
  have hup : ¬ (t - ⌊t⌋ < 1 / 2) → ⌊t⌋ + 1 ≤ n - 1 := by
    intro hh
    have : (⌊t⌋ : ℚ) + 1 < n := by linarith
    have : ⌊t⌋ + 1 < n := by exact_mod_cast this
    omega
  unfold roundHalfEven
  split_ifs with h1 h2 h3
  · exact hfn
  · exact hup h1
  · exact hfn
  · exact hup h1

theorem roundHalfEven_intCast (n : ℤ) : roundHalfEven (n : ℚ) = n := by
  unfold roundHalfEven
  simp

theorem ulp_pos (x : ℚ) : 0 < ulp x := by
  unfold ulp
  positivity

/-- A bound that lies on the grid of `x` is respected by rounding from below. -/
theorem roundNearest_le {x c : ℚ} (n : ℤ) (hc : c = n * ulp x) (h : x ≤ c) :
    roundNearest x ≤ c := by
  have hu := ulp_pos x
  have ht : x / ulp x ≤ n := by
    rw [div_le_iff₀ hu, ← hc]
    exact h
  have := roundHalfEven_le ht
  have hq : (roundHalfEven (x / ulp x) : ℚ) ≤ n := by exact_mod_cast this
  rw [roundNearest, hc]
  exact mul_le_mul_of_nonneg_right hq hu.le

/-- A bound that lies on the grid of `x` is respected by rounding from above. -/
theorem le_roundNearest {x c : ℚ} (n : ℤ) (hc : c = n * ulp x) (h : c ≤ x) :
    c ≤ roundNearest x := by
  have hu := ulp_pos x
  have ht : (n : ℚ) ≤ x / ulp x := by
    rw [le_div_iff₀ hu, ← hc]
    exact h
  have := le_roundHalfEven ht
  have hq : (n : ℚ) ≤ roundHalfEven (x / ulp x) := by exact_mod_cast this
  rw [roundNearest, hc]
  exact mul_le_mul_of_nonneg_right hq hu.le

/-- A number on its own grid is not changed by rounding. -/
theorem roundNearest_eq {x : ℚ} (n : ℤ) (hx : x = n * ulp x) : roundNearest x = x :=
  le_antisymm (roundNearest_le n hx le_rfl) (le_roundNearest n hx le_rfl)

theorem binade_le {x : ℚ} {k : ℤ} (hk : 0 ≤ k) (hx : |x| < 2 ^ (k + 1)) : binade x ≤ k := by
  unfold binade
  apply max_le _ (by omega)
  rcases (abs_nonneg x).eq_or_lt with h0 | hpos
  · rw [← h0, Int.log_zero_right]
    exact hk
  · have := (Int.lt_zpow_iff_log_lt (R := ℚ) (b := 2) (by norm_num) hpos).mp
      (by simpa using hx)
    omega

theorem le_binade {x : ℚ} {k : ℤ} (hx : 2 ^ k ≤ |x|) : k ≤ binade x := by
  unfold binade
  have hpos : 0 < |x| := lt_of_lt_of_le (by positivity) hx
  have := (Int.zpow_le_iff_le_log (R := ℚ) (b := 2) (by norm_num) hpos).mp (by simpa using hx)
  exact le_max_of_le_left this

/-- A power of two with exponent `j` lies on every grid of exponent at most `j`. -/
theorem zpow_two_on_grid {i j : ℤ} (h : i ≤ j) : ∃ n : ℤ, (2 : ℚ) ^ j = n * 2 ^ i := by
  refine ⟨2 ^ (j - i).toNat, ?_⟩
  have hj : j = ((j - i).toNat : ℤ) + i := by
    rw [Int.toNat_of_nonneg (by omega)]
    ring
  conv_lhs => rw [hj]
  rw [zpow_add₀ (by norm_num), zpow_natCast]
  push_cast
  ring

/-- A multiple of `2 ^ j` lies on the grid of `x` when the binade of `x` is at most
`j + 52`. -/
theorem on_grid {x c : ℚ} (N j : ℤ) (hc : c = N * 2 ^ j) (hb : binade x ≤ j + 52) :
    ∃ n : ℤ, c = n * ulp x := by
  obtain ⟨n, hn⟩ := zpow_two_on_grid (i := binade x - 52) (j := j) (by omega)
  refine ⟨N * n, ?_⟩
  rw [hc, hn, ulp]
  push_cast
  ring

/-- Natural numbers below `2 ^ 53` are binary64 values. -/
theorem roundDouble_natCast (n : ℕ) (h : n < 2 ^ 53) : roundDouble (n : ℚ) = some (n : ℚ) := by
  have hlt : |(n : ℚ)| < 2 ^ ((52 : ℤ) + 1) := by
    rw [abs_of_nonneg (by positivity)]
    have h53 : (2 : ℚ) ^ ((52 : ℤ) + 1) = ((2 ^ 53 : ℕ) : ℚ) := by norm_num
    rw [h53]
    exact_mod_cast h
  have hb : binade (n : ℚ) ≤ 0 + 52 := by simpa using binade_le (by norm_num) hlt
  obtain ⟨g, hg⟩ := on_grid (x := (n : ℚ)) (c := (n : ℚ)) n 0 (by simp) hb
  have hr := roundNearest_eq g hg
  have hbig : |(n : ℚ)| < 2 ^ 1024 := by
    refine lt_trans hlt ?_
    norm_num
  rw [roundDouble, hr, if_pos hbig]

/-- Dyadic numbers with numerator below `2 ^ 53` and at most 52 fractional bits are
binary64 values. -/
theorem roundDouble_dyadic (n j : ℕ) (hn : n < 2 ^ 53) (hj : j ≤ 52) :
    roundDouble ((n : ℚ) / 2 ^ j) = some ((n : ℚ) / 2 ^ j) := by
  have hpow : (0 : ℚ) < 2 ^ j := by positivity
  have hnq : (n : ℚ) < 2 ^ 53 := by exact_mod_cast hn
  have hsplit : (2 : ℚ) ^ (52 - (j : ℤ) + 1) * 2 ^ j = 2 ^ 53 := by
    rw [← zpow_natCast (2 : ℚ) j, ← zpow_add₀ (by norm_num)]
    have : (52 - (j : ℤ) + 1 + j) = ((53 : ℕ) : ℤ) := by push_cast; ring
    rw [this, zpow_natCast]
  have hlt : |(n : ℚ) / 2 ^ j| < 2 ^ (52 - (j : ℤ) + 1) := by
    rw [abs_of_nonneg (by positivity), div_lt_iff₀ hpow, hsplit]
    exact hnq
  have hb : binade ((n : ℚ) / 2 ^ j) ≤ -(j : ℤ) + 52 := by
    have := binade_le (x := (n : ℚ) / 2 ^ j) (k := 52 - (j : ℤ)) (by omega) hlt
    omega
  obtain ⟨g, hg⟩ := on_grid (x := (n : ℚ) / 2 ^ j) (c := (n : ℚ) / 2 ^ j) n (-(j : ℤ))
    (by rw [zpow_neg, zpow_natCast]; push_cast; ring) hb
  have hr := roundNearest_eq g hg
  have hbig : |(n : ℚ) / 2 ^ j| < 2 ^ 1024 := by
    rw [abs_of_nonneg (by positivity), div_lt_iff₀ hpow]
    have h1 : (2 : ℚ) ^ 53 ≤ 2 ^ 1024 := by norm_num
    have h2 : (1 : ℚ) ≤ 2 ^ j := one_le_pow₀ (by norm_num)
    nlinarith
  rw [roundDouble, hr, if_pos hbig]

/-- A value of `Math.random()`, a binary64 number `m / 2 ^ k` below 1, is at most
`1 - 2 ^ (-53)`. -/
theorem random_le (m k : ℕ) (hm : m < 2 ^ 53) (hr : (m : ℚ) / 2 ^ k < 1) :
    (m : ℚ) / 2 ^ k ≤ 1 - 1 / 2 ^ 53 := by
  have hpow : (0 : ℚ) < 2 ^ k := by positivity
  have hmk : m < 2 ^ k := by
    rw [div_lt_one hpow] at hr
    exact_mod_cast hr
  rw [div_le_iff₀ hpow]
  rcases Nat.le_total k 53 with hk | hk
  · have h1 : (m : ℚ) + 1 ≤ 2 ^ k := by exact_mod_cast hmk
    have h2 : (2 : ℚ) ^ k ≤ 2 ^ 53 := pow_le_pow_right₀ (by norm_num) hk
    have h3 : (2 : ℚ) ^ k / 2 ^ 53 ≤ 1 := by
      rw [div_le_one (by positivity)]
      exact h2
    have h4 : (1 - 1 / 2 ^ 53) * (2 : ℚ) ^ k = 2 ^ k - 2 ^ k / 2 ^ 53 := by ring
    rw [h4]
    linarith
  · have h1 : (m : ℚ) + 1 ≤ 2 ^ 53 := by exact_mod_cast hm
    have h2 : (2 : ℚ) ^ 53 ≤ 2 ^ k := pow_le_pow_right₀ (by norm_num) hk
    have h3 : (1 - 1 / 2 ^ 53) * (2 : ℚ) ^ 53 ≤ (1 - 1 / 2 ^ 53) * 2 ^ k :=
      mul_le_mul_of_nonneg_left h2 (by norm_num)
    have h4 : (1 - 1 / 2 ^ 53) * (2 : ℚ) ^ 53 = 2 ^ 53 - 1 := by norm_num
    linarith

/-- The rounded product `r * 76` stays at or below the binary64 value just under 76. -/
theorem scaled_bounds {p : ℚ} (h0 : 0 ≤ p) (h1 : p ≤ 76 - 76 / 2 ^ 53) :
    0 ≤ roundNearest p ∧ roundNearest p ≤ 76 - 1 / 2 ^ 46 := by
  constructor
  · exact le_roundNearest 0 (by simp) h0
  · by_cases h64 : p < 64
    · have hb : binade p ≤ 5 := by
        apply binade_le (by norm_num)
        rw [abs_of_nonneg h0]
        norm_num
        exact h64
      obtain ⟨g, hg⟩ := on_grid (x := p) (c := 64) 1 6 (by norm_num) (by omega)
      have := roundNearest_le g hg h64.le
      have h46 : (1 : ℚ) / 2 ^ 46 ≤ 12 := by norm_num
      linarith
    · have h64 : (64 : ℚ) ≤ p := not_lt.mp h64
      have hb : binade p = 6 := by
        apply le_antisymm
        · apply binade_le (by norm_num)
          rw [abs_of_nonneg h0]
          norm_num
          have : (76 : ℚ) / 2 ^ 53 > 0 := by positivity
          linarith
        · apply le_binade
          rw [abs_of_nonneg h0]
          norm_num
          exact h64
      have hulp : ulp p = 1 / 2 ^ 46 := by
        rw [ulp, hb]
        norm_num [zpow_neg]
      have ht : p / ulp p < ((76 * 2 ^ 46 : ℤ) : ℚ) - 1 / 2 := by
        rw [hulp, div_lt_iff₀ (by positivity)]
        have h2 : (((76 * 2 ^ 46 : ℤ) : ℚ) - 1 / 2) * ((1 : ℚ) / 2 ^ 46) = 76 - 64 / 2 ^ 53 := by
          norm_num
        rw [h2]
        have h3 : (64 : ℚ) / 2 ^ 53 < 76 / 2 ^ 53 := by norm_num
        linarith
      have hround := roundHalfEven_le_pred ht
      have hq : (roundHalfEven (p / ulp p) : ℚ) ≤ ((76 * 2 ^ 46 - 1 : ℤ) : ℚ) := by
        exact_mod_cast hround
      have hmul := mul_le_mul_of_nonneg_right hq (ulp_pos p).le
      rw [roundNearest]
      refine hmul.trans ?_
      rw [hulp]
      norm_num

/-- The rounded sum with 45 stays between 45 and the binary64 value just under 121. -/
theorem shifted_bounds {s : ℚ} (h0 : 45 ≤ s) (h1 : s ≤ 121 - 1 / 2 ^ 46) :
    45 ≤ roundNearest s ∧ roundNearest s ≤ 121 - 1 / 2 ^ 46 := by
  have hs0 : 0 ≤ s := by linarith
  have hb : binade s ≤ 6 := by
    apply binade_le (by norm_num)
    rw [abs_of_nonneg hs0]
    norm_num
    have : (1 : ℚ) / 2 ^ 46 > 0 := by positivity
    linarith
  constructor
  · obtain ⟨g, hg⟩ := on_grid (x := s) (c := 45) 45 0 (by norm_num) (by omega)
    exact le_roundNearest g hg h0
  · obtain ⟨g, hg⟩ := on_grid (x := s) (c := 121 - 1 / 2 ^ 46) (121 * 2 ^ 46 - 1) (-46)
      (by norm_num [zpow_neg]) (by omega)
    exact roundNearest_le g hg h1

theorem roundDouble_of_abs_lt {x : ℚ} (h : |roundNearest x| < 2 ^ 1024) :
    roundDouble x = some (roundNearest x) := by
  rw [roundDouble, if_pos h]

theorem roundDouble_intCast {s : ℤ} (h0 : 0 ≤ s) (h1 : s < 2 ^ 53) :
    roundDouble (s : ℚ) = some (s : ℚ) := by
  obtain ⟨n, rfl⟩ := Int.eq_ofNat_of_zero_le h0
  have hn : n < 2 ^ 53 := by exact_mod_cast h1
  simpa using roundDouble_natCast n hn

/-- For every binary64 value `m / 2 ^ k` of `Math.random()` below 1 the interval is
`1000 * s` for an integer `s` between 45 and 120. -/
theorem interval_spec (m k : ℕ) (hm : m < 2 ^ 53) (hr : (m : ℚ) / 2 ^ k < 1) :
    ∃ s : ℤ, 45 ≤ s ∧ s ≤ 120 ∧ interval ((m : ℚ) / 2 ^ k) = some (1000 * (s : ℚ)) := by
  have hle := random_le m k hm hr
  have h0 : (0 : ℚ) ≤ (m : ℚ) / 2 ^ k := by positivity
  generalize (m : ℚ) / 2 ^ k = r at hle h0
  obtain ⟨hp0, hp1⟩ := scaled_bounds (p := r * 76) (by positivity)
    (by
      have : (76 : ℚ) - 76 / 2 ^ 53 = (1 - 1 / 2 ^ 53) * 76 := by ring
      rw [this]
      exact mul_le_mul_of_nonneg_right hle (by norm_num))
  obtain ⟨hs0, hs1⟩ := shifted_bounds (s := roundNearest (r * 76) + 45) (by linarith)
    (by linarith)
  have hsmall : (1 : ℚ) / 2 ^ 46 > 0 := by positivity
  have e1 : fsub 120 45 = some 75 := by
    have : (120 : ℚ) - 45 = ((75 : ℕ) : ℚ) := by norm_num
    rw [fsub, this, roundDouble_natCast 75 (by norm_num)]
    norm_num
  have e2 : fadd 75 1 = some 76 := by
    have : (75 : ℚ) + 1 = ((76 : ℕ) : ℚ) := by norm_num
    rw [fadd, this, roundDouble_natCast 76 (by norm_num)]
    norm_num
  have e3 : fmul r 76 = some (roundNearest (r * 76)) := by
    apply roundDouble_of_abs_lt
    rw [abs_of_nonneg hp0]
    have : (76 : ℚ) < 2 ^ 1024 := by norm_num
    linarith
  have e4 : fadd (roundNearest (r * 76)) 45 = some (roundNearest (roundNearest (r * 76) + 45)) := by
    apply roundDouble_of_abs_lt
    rw [abs_of_nonneg (by linarith)]
    have : (121 : ℚ) < 2 ^ 1024 := by norm_num
    linarith
  have hf0 : (45 : ℤ) ≤ ⌊roundNearest (roundNearest (r * 76) + 45)⌋ :=
    Int.le_floor.mpr (by exact_mod_cast hs0)
  have hf1 : ⌊roundNearest (roundNearest (r * 76) + 45)⌋ < (121 : ℤ) :=
    Int.floor_lt.mpr (by push_cast; linarith)
  have e5 : fmul ((⌊roundNearest (roundNearest (r * 76) + 45)⌋ : ℤ) : ℚ) 1000 =
      some (1000 * ((⌊roundNearest (roundNearest (r * 76) + 45)⌋ : ℤ) : ℚ)) := by
    have hprod : ((⌊roundNearest (roundNearest (r * 76) + 45)⌋ : ℤ) : ℚ) * 1000 =
        ((⌊roundNearest (roundNearest (r * 76) + 45)⌋ * 1000 : ℤ) : ℚ) := by push_cast; ring
    rw [fmul, hprod, roundDouble_intCast (by omega) (by norm_num; omega)]
    push_cast
    ring_nf
  refine ⟨⌊roundNearest (roundNearest (r * 76) + 45)⌋, hf0, by omega, ?_⟩
  simp only [interval, e1, e2, e3, e4, e5, Option.bind_eq_bind, Option.some_bind]

/-! ## The scheduler -/

theorem interval_zero : interval (((0 : ℕ) : ℚ) / 2 ^ 0) = some (1000 * ((45 : ℤ) : ℚ)) := by
  have e1 : fsub 120 45 = some 75 := by
    have : (120 : ℚ) - 45 = ((75 : ℕ) : ℚ) := by norm_num
    rw [fsub, this, roundDouble_natCast 75 (by norm_num)]
    norm_num
  have e2 : fadd 75 1 = some 76 := by
    have : (75 : ℚ) + 1 = ((76 : ℕ) : ℚ) := by norm_num
    rw [fadd, this, roundDouble_natCast 76 (by norm_num)]
    norm_num
  have e3 : fmul (((0 : ℕ) : ℚ) / 2 ^ 0) 76 = some 0 := by
    have : (((0 : ℕ) : ℚ) / 2 ^ 0) * 76 = ((0 : ℕ) : ℚ) := by norm_num
    rw [fmul, this, roundDouble_natCast 0 (by norm_num)]
    norm_num
  have e4 : fadd 0 45 = some 45 := by
    have : (0 : ℚ) + 45 = ((45 : ℕ) : ℚ) := by norm_num
    rw [fadd, this, roundDouble_natCast 45 (by norm_num)]
    norm_num
  have hfloor : ⌊(45 : ℚ)⌋ = 45 := by
    have : (45 : ℚ) = ((45 : ℤ) : ℚ) := by norm_num
    rw [this, Int.floor_intCast]
  have e5 : fmul ((45 : ℤ) : ℚ) 1000 = some (1000 * ((45 : ℤ) : ℚ)) := by
    have : ((45 : ℤ) : ℚ) * 1000 = ((45000 : ℕ) : ℚ) := by norm_num
    rw [fmul, this, roundDouble_natCast 45000 (by norm_num)]
    norm_num
  unfold interval
  simp only [Option.bind_eq_bind]
  rw [e1, Option.some_bind, e2, Option.some_bind, e3, Option.some_bind, e4, Option.some_bind,
    hfloor, e5]

theorem interval_top : interval (((127 : ℕ) : ℚ) / 2 ^ 7) = some (1000 * ((120 : ℤ) : ℚ)) := by
  have e1 : fsub 120 45 = some 75 := by
    have : (120 : ℚ) - 45 = ((75 : ℕ) : ℚ) := by norm_num
    rw [fsub, this, roundDouble_natCast 75 (by norm_num)]
    norm_num
  have e2 : fadd 75 1 = some 76 := by
    have : (75 : ℚ) + 1 = ((76 : ℕ) : ℚ) := by norm_num
    rw [fadd, this, roundDouble_natCast 76 (by norm_num)]
    norm_num
  have e3 : fmul (((127 : ℕ) : ℚ) / 2 ^ 7) 76 = some (((2413 : ℕ) : ℚ) / 2 ^ 5) := by
    have : (((127 : ℕ) : ℚ) / 2 ^ 7) * 76 = ((2413 : ℕ) : ℚ) / 2 ^ 5 := by norm_num
    rw [fmul, this, roundDouble_dyadic 2413 5 (by norm_num) (by norm_num)]
  have e4 : fadd (((2413 : ℕ) : ℚ) / 2 ^ 5) 45 = some (((3853 : ℕ) : ℚ) / 2 ^ 5) := by
    have : ((2413 : ℕ) : ℚ) / 2 ^ 5 + 45 = ((3853 : ℕ) : ℚ) / 2 ^ 5 := by norm_num
    rw [fadd, this, roundDouble_dyadic 3853 5 (by norm_num) (by norm_num)]
  have hfloor : ⌊((3853 : ℕ) : ℚ) / 2 ^ 5⌋ = 120 := by
    rw [Int.floor_eq_iff]
    constructor <;> norm_num
  have e5 : fmul ((120 : ℤ) : ℚ) 1000 = some (1000 * ((120 : ℤ) : ℚ)) := by
    have : ((120 : ℤ) : ℚ) * 1000 = ((120000 : ℕ) : ℚ) := by norm_num
    rw [fmul, this, roundDouble_natCast 120000 (by norm_num)]
    norm_num
  unfold interval
  simp only [Option.bind_eq_bind]
  rw [e1, Option.some_bind, e2, Option.some_bind, e3, Option.some_bind, e4, Option.some_bind,
    hfloor, e5]

/-- C4: for every binary64 value `r = m / 2 ^ k` of the random source with `0 ≤ r < 1`
the interval `Math.floor(r * (120 - 45 + 1) + 45) * 1000`, computed in double
precision, is `1000 * s` for an integer `s` with `45 ≤ s ≤ 120`; the bound 45 is
attained at `r = 0` and the bound 120 at `r = 127 / 128`. -/
theorem interval_range (m k : ℕ) (hm : m < 2 ^ 53) (hr : (m : ℚ) / 2 ^ k < 1) :
    (∃ s : ℤ, 45 ≤ s ∧ s ≤ 120 ∧ interval ((m : ℚ) / 2 ^ k) = some (1000 * (s : ℚ))) ∧
    interval (((0 : ℕ) : ℚ) / 2 ^ 0) = some (1000 * ((45 : ℤ) : ℚ)) ∧
    interval (((127 : ℕ) : ℚ) / 2 ^ 7) = some (1000 * ((120 : ℤ) : ℚ)) :=
  ⟨interval_spec m k hm hr, interval_zero, interval_top⟩

/-- Witness of C4: the value `r = 127 / 128`. -/
theorem interval_range_witness :
    (127 < 2 ^ 53 ∧ ((127 : ℕ) : ℚ) / 2 ^ 7 < 1) ∧
    ((∃ s : ℤ, 45 ≤ s ∧ s ≤ 120 ∧ interval (((127 : ℕ) : ℚ) / 2 ^ 7) = some (1000 * (s : ℚ))) ∧
    interval (((0 : ℕ) : ℚ) / 2 ^ 0) = some (1000 * ((45 : ℤ) : ℚ)) ∧
    interval (((127 : ℕ) : ℚ) / 2 ^ 7) = some (1000 * ((120 : ℤ) : ℚ))) :=
  ⟨⟨by norm_num, by norm_num⟩, interval_range 127 7 (by norm_num) (by norm_num)⟩

/-- The scanner returns normally whatever the outcomes of its calls. -/
theorem listMessages_total (w : World) (tr : List Ev) :
    ∃ new, (listMessagesWithNoReplies w).run tr = (.ok (), tr ++ new) := by
  cases hlist : w.messagesList (tr ++ [.messagesList "is:unread -in:sent -in:chat"]) with
  | error err =>
    exact ⟨_, by simp [listMessagesWithNoReplies, hlist]; rfl⟩
  | ok res =>
    obtain ⟨est, messages⟩ := res
    by_cases hest : est = 0
    · exact ⟨[.messagesList "is:unread -in:sent -in:chat", .resume],
        by simp [listMessagesWithNoReplies, hlist, hest]⟩
    · cases messages with
      | none =>
        exact ⟨_, by simp [listMessagesWithNoReplies, hlist, hest]; rfl⟩
      | some messages =>
        by_cases hne : messages = []
        · exact ⟨_, by simp [listMessagesWithNoReplies, hlist, hest, hne]; rfl⟩
        · obtain ⟨new, hrun, -⟩ := forEachMessage_run_calls w messages
            (tr ++ [.messagesList "is:unread -in:sent -in:chat", .resume])
          refine ⟨[.messagesList "is:unread -in:sent -in:chat", .resume] ++ new, ?_⟩
          rw [listMessages_run_loop w tr est messages hlist hest hne, hrun]
          simp

/-- A pass starts with the call of `authorize`, is resumed after it, and ends with the
settling of its promise. -/
theorem runTask_events (w : World) :
    ∃ rest, (runTask w).events [] =
      [.enter .runTask [], .authorize, .resume] ++ rest ++ [.leave .runTask] := by
  cases hauth : w.authorize [.enter .runTask [], .authorize] with
  | error err =>
    refine ⟨[.consoleError ["An error occurred: " ++ err.message]], ?_⟩
    simp [Js.events, runTask, hauth]
  | ok u =>
    obtain ⟨new, hrun⟩ := listMessages_total w [.enter .runTask [], .authorize, .resume]
    refine ⟨new ++ [.resume], ?_⟩
    simp [Js.events, runTask, hauth, hrun]

theorem fdiv_thousand (s : ℤ) (h0 : 0 ≤ s) (h1 : s ≤ 120) :
    fdiv (1000 * (s : ℚ)) 1000 = some (s : ℚ) := by
  have : 1000 * (s : ℚ) / 1000 = (s : ℚ) := by ring
  rw [fdiv, this, roundDouble_intCast h0 (by norm_num; omega)]

theorem numberToString_intCast (s : ℤ) (h0 : 0 ≤ s) (h1 : s ≤ 120) :
    numberToString (s : ℚ) = some (toString s) := by
  have habs : |(s : ℚ)| < 10 ^ 21 := by
    rw [abs_of_nonneg (by exact_mod_cast h0)]
    have : (s : ℚ) ≤ 120 := by exact_mod_cast h1
    have h21 : (120 : ℚ) < 10 ^ 21 := by norm_num
    linarith
  simp [numberToString, habs]

/-- What `runTaskWithRandomInterval` does for an interval of `1000 * s` milliseconds. -/
theorem runTaskWithRandomInterval_of_interval (r : ℚ) (s : ℤ) (h0 : 45 ≤ s) (h1 : s ≤ 120)
    (hi : interval r = some (1000 * (s : ℚ))) :
    runTaskWithRandomInterval r =
      some [.consoleLog ["Next run in " ++ toString s ++ " seconds."],
        .setTimeout (1000 * (s : ℚ))] := by
  unfold runTaskWithRandomInterval
  simp only [Option.bind_eq_bind]
  rw [hi, Option.some_bind, fdiv_thousand s (by omega) h1, Option.some_bind,
    numberToString_intCast s (by omega) h1, Option.some_bind]
  rfl

theorem syncPart_pass (rest : List Ev) :
    syncPart ([.enter .runTask [], .authorize, .resume] ++ rest ++ [.leave .runTask])
      = [.enter .runTask [], .authorize] := by
  have h1 : (Ev.enter .runTask [] != Ev.resume) = true := by decide
  have h2 : (Ev.authorize != Ev.resume) = true := by decide
  have h3 : (Ev.resume != Ev.resume) = false := by decide
  simp only [syncPart, List.cons_append, List.nil_append, List.takeWhile, h1, h2, h3]

theorem laterPart_pass (rest : List Ev) :
    laterPart ([.enter .runTask [], .authorize, .resume] ++ rest ++ [.leave .runTask])
      = .resume :: rest ++ [.leave .runTask] := by
  have h1 : (Ev.enter .runTask [] != Ev.resume) = true := by decide
  have h2 : (Ev.authorize != Ev.resume) = true := by decide
  have h3 : (Ev.resume != Ev.resume) = false := by decide
  simp only [laterPart, List.cons_append, List.nil_append, List.dropWhile, h1, h2, h3]
  rfl

/-- C9 as stated fails: in the timer callback the next timer is armed in the job that
starts the pass, and the pass finishes in a later job; the end of the pass does not come
before the arming. -/
theorem timer_armed_before_pass_finished :
    timerCallback emptyWorld (((0 : ℕ) : ℚ) / 2 ^ 0) =
        some ([.enter .runTask [], .authorize,
            .consoleLog ["Next run in 45 seconds."], .setTimeout (1000 * ((45 : ℤ) : ℚ))],
          [.resume, .messagesList "is:unread -in:sent -in:chat", .resume, .resume,
            .leave .runTask]) ∧
      Ev.leave .runTask ∉ ([.enter .runTask [], .authorize,
        .consoleLog ["Next run in 45 seconds."], .setTimeout (1000 * ((45 : ℤ) : ℚ))] : List Ev) := by
  constructor
  · have harm := runTaskWithRandomInterval_of_interval (((0 : ℕ) : ℚ) / 2 ^ 0) 45
      (by norm_num) (by norm_num) interval_zero
    have hpass : (runTask emptyWorld).events [] =
        [.enter .runTask [], .authorize, .resume] ++
          [.messagesList "is:unread -in:sent -in:chat", .resume, .resume] ++
          [.leave .runTask] := rfl
    unfold timerCallback
    simp only [Option.bind_eq_bind]
    rw [harm, Option.some_bind, hpass, syncPart_pass, laterPart_pass]
    rfl
  · simp

/-- C9, amended: in every execution of the timer callback, `runTask` is started and runs
to its first `await` (the call of `authorize`), then `runTaskWithRandomInterval` logs
and arms the next timer in the same job; the pass is resumed and finishes in later
jobs. The timer is armed once the pass has been started, not once it has finished. -/
theorem timer_rearmed_without_waiting (w : World) (m k : ℕ) (hm : m < 2 ^ 53)
    (hr : (m : ℚ) / 2 ^ k < 1) :
    ∃ (s : ℤ) (rest : List Ev), 45 ≤ s ∧ s ≤ 120 ∧
      timerCallback w ((m : ℚ) / 2 ^ k) =
        some ([.enter .runTask [], .authorize,
            .consoleLog ["Next run in " ++ toString s ++ " seconds."],
            .setTimeout (1000 * (s : ℚ))],
          .resume :: rest ++ [.leave .runTask]) := by
  obtain ⟨s, h0, h1, hi⟩ := interval_spec m k hm hr
  obtain ⟨rest, hpass⟩ := runTask_events w
  have harm := runTaskWithRandomInterval_of_interval _ s h0 h1 hi
  refine ⟨s, rest, h0, h1, ?_⟩
  unfold timerCallback
  simp only [Option.bind_eq_bind]
  rw [harm, Option.some_bind, hpass, syncPart_pass, laterPart_pass]
  rfl

/-- Witness of C9, amended: the value `r = 127 / 128` in the world `okWorld`. -/
theorem timer_rearmed_without_waiting_witness :
    (127 < 2 ^ 53 ∧ ((127 : ℕ) : ℚ) / 2 ^ 7 < 1) ∧
    ∃ (s : ℤ) (rest : List Ev), 45 ≤ s ∧ s ≤ 120 ∧
      timerCallback okWorld (((127 : ℕ) : ℚ) / 2 ^ 7) =
        some ([.enter .runTask [], .authorize,
            .consoleLog ["Next run in " ++ toString s ++ " seconds."],
            .setTimeout (1000 * (s : ℚ))],
          .resume :: rest ++ [.leave .runTask]) :=
  ⟨⟨by norm_num, by norm_num⟩,
    timer_rearmed_without_waiting okWorld 127 7 (by norm_num) (by norm_num)⟩

end AutoReply
